import Mathlib

/-!
Verification development for the stashdb-whisparr browser extension's core:
the filter evaluation engine and the batch lifecycle state machine of the
background script.  JavaScript values are embedded shallowly: statuses become
an inductive type, partial-object updates become records of `Option` fields,
the mutable `batchesCache` / `filtersCache` / `cancelledBatchIds` globals
become an explicit `State` threaded through the operations, and the remote
media-server client plus the host regex engine become oracle parameters
(`api`, `compile`).  Persistence writes, broadcasts, notifications and remote
calls are recorded in an explicit event trace.
-/

namespace StashdbWhisparr

/-- JS `hay.includes(sub)`: `sub` occurs as a contiguous substring of `hay`. -/
def includesStr (hay sub : String) : Bool := decide (sub.data <:+: hay.data)

/-- JS `s.charAt(0).toUpperCase() + s.slice(1)` (used for the type label in
filter reasons). -/
def capitalize (s : String) : String :=
  match s.data with
  | [] => ""
  | c :: cs => String.mk (c.toUpper :: cs)

/-- JS `s.trim()`: strip whitespace from both ends. -/
def trimStr (s : String) : String :=
  String.mk (((s.data.dropWhile (fun c => c.isWhitespace)).reverse.dropWhile
    (fun c => c.isWhitespace)).reverse)

/-- A filter rule, as stored in `filtersCache`.  Field `type` is one of
`studio`/`performer`/`name`/`tag`, `mode` one of `blocklist`/`allowlist`,
`value` is the regex pattern source text. -/
structure Filter where
  id : String
  type : String
  mode : String
  value : String
  enabled : Bool
deriving DecidableEq

/-- Normalized scene metadata, the output shape of `normalizeSceneMetadata`. -/
structure SceneMetadata where
  studio : String
  performers : List String
  tags : List String
  title : String
deriving DecidableEq

/-- The value selected for a filter type: a single string or a string list. -/
inductive SceneValue where
  | single (s : String)
  | many (l : List String)
deriving DecidableEq

/-- `getSceneValueByType`: selects the scene attribute tested by a rule.
The `default` branch of the source `switch` returns the empty string. -/
def getSceneValueByType (filterType : String) (metadata : SceneMetadata) : SceneValue :=
  if filterType = "studio" then SceneValue.single metadata.studio
  else if filterType = "performer" then SceneValue.many metadata.performers
  else if filterType = "name" then SceneValue.single metadata.title
  else if filterType = "tag" then SceneValue.many metadata.tags
  else SceneValue.single ""

/-- `regexMatchesValue`: a list value matches when the regex matches at least
one element; a single string is tested directly.  The compiled regex is
abstracted as a `String → Bool` test. -/
def regexMatchesValue (test : String → Bool) : SceneValue → Bool
  | SceneValue.many l => l.any (fun v => test v)
  | SceneValue.single s => test s

/-- Result of evaluating one filter (`evaluateFilter`). -/
structure FilterResult where
  pass : Bool
  reason : Option String
deriving DecidableEq

/-- `evaluateFilter`: evaluate one filter against normalized metadata.
Disabled filters, blank patterns and patterns the regex engine rejects all
pass.  The host call `new RegExp(filter.value, 'i')` is abstracted by the
oracle `compile`, which returns `none` when compilation fails and otherwise
the case-insensitive match test. -/
def evaluateFilter (compile : String → Option (String → Bool))
    (filter : Filter) (metadata : SceneMetadata) : FilterResult :=
  if !filter.enabled then ⟨true, none⟩
  else if trimStr filter.value = "" then ⟨true, none⟩
  else
    let sceneValue := getSceneValueByType filter.type metadata
    match compile filter.value with
    | none => ⟨true, none⟩
    | some test =>
      let isMatch := regexMatchesValue test sceneValue
      let typeLabel := capitalize filter.type
      if filter.mode = "blocklist" then
        if isMatch then
          ⟨false, some ("Blocked " ++ typeLabel ++ ": /" ++ filter.value ++ "/")⟩
        else ⟨true, none⟩
      else
        if !isMatch then
          ⟨false, some (typeLabel ++ " doesn't match: /" ++ filter.value ++ "/")⟩
        else ⟨true, none⟩

/-- Result of `shouldAddScene`. -/
structure EvalResult where
  shouldAdd : Bool
  reason : Option String
  filterId : Option String
deriving DecidableEq

/-- `shouldAddScene`: walk the filter list in stored order; the first failing
filter short-circuits with its reason and id.  (The source first normalizes
the raw scene object via `normalizeSceneMetadata`; the evaluator is modelled
at the normalized boundary.) -/
def shouldAddScene (compile : String → Option (String → Bool))
    (filters : List Filter) (metadata : SceneMetadata) : EvalResult :=
  match filters with
  | [] => ⟨true, none, none⟩
  | f :: rest =>
    let result := evaluateFilter compile f metadata
    if !result.pass then ⟨false, result.reason, some f.id⟩
    else shouldAddScene compile rest metadata

/-- Reference definition, written from the specification's words: the scene
values selected by a rule type, as a list (a single string becomes a
one-element list, so "match any element" covers both cases). -/
def specSelectValues (t : String) (md : SceneMetadata) : List String :=
  if t = "studio" then [md.studio]
  else if t = "performer" then md.performers
  else if t = "name" then [md.title]
  else md.tags

/-- Reference definition, written from the specification's words: a rule
fails the scene when it is enabled, its pattern is non-blank and compiles,
and either it is a blocklist rule whose pattern matches some selected value,
or an allowlist rule whose pattern matches none. -/
def specRuleFails (compile : String → Option (String → Bool))
    (md : SceneMetadata) (r : Filter) : Bool :=
  r.enabled && !(trimStr r.value = "") &&
    (match compile r.value with
     | none => false
     | some test =>
       let matched := (specSelectValues r.type md).any test
       if r.mode = "blocklist" then matched else !matched)

/-- Scene record statuses (source strings `'waiting'`, …; the source string
`'exists'` is modelled by the constructor `exist`). -/
inductive Status where
  | waiting | adding | added | searched | exist | filtered
  | error | cancelled | removing | removed
deriving DecidableEq

/-- A scene record inside a batch.  `createBatch` initializes records without
a `whisparrId` property (modelled as `none`). -/
structure SceneRecord where
  stashId : String
  title : Option String
  status : Status
  error : Option String
  whisparrId : Option Nat
deriving DecidableEq

/-- A batch, as stored in `batchesCache`. -/
structure Batch where
  id : String
  timestamp : Nat
  scenes : List SceneRecord
deriving DecidableEq

/-- The background script's mutable globals: `batchesCache`,
`cancelledBatchIds` (a JS `Set`, modelled as a duplicate-free list) and
`filtersCache`. -/
structure State where
  batches : List Batch
  cancelledBatchIds : List String
  filters : List Filter
deriving DecidableEq

/-- Observable effects of the operations: per-scene status updates (with the
status before and after), persistence writes (each `saveBatches` /
`saveFilters` also broadcasts), remote add / delete calls, and user
notifications. -/
inductive Event where
  | statusUpdate (batchId stashId : String) (old new : Status)
  | persistBatches
  | persistFilters
  | apiAdd (stashId : String)
  | apiDelete (stashId : String)
  | notify (title message : String)
deriving DecidableEq

/-- A partial update object passed to `updateSceneStatus`
(`Object.assign(scene, updates)`): `none` means the key is absent. -/
structure SceneUpdate where
  status : Option Status := none
  title : Option (Option String) := none
  error : Option (Option String) := none
  whisparrId : Option (Option Nat) := none
deriving DecidableEq

/-- `Object.assign(scene, updates)` for the fields appearing at the call
sites; absent keys leave the field unchanged. -/
def applyUpdate (s : SceneRecord) (u : SceneUpdate) : SceneRecord :=
  { stashId := s.stashId
    title := u.title.getD s.title
    status := u.status.getD s.status
    error := u.error.getD s.error
    whisparrId := u.whisparrId.getD s.whisparrId }

/-- Update the first record with the given `stashId` (JS `Array.find` returns
the first match); also report the status before and after the update when a
record was found. -/
def updateFirstScene (stashId : String) (u : SceneUpdate) :
    List SceneRecord → List SceneRecord × Option (Status × Status)
  | [] => ([], none)
  | s :: rest =>
    if s.stashId = stashId then
      (applyUpdate s u :: rest, some (s.status, (applyUpdate s u).status))
    else
      let r := updateFirstScene stashId u rest
      (s :: r.1, r.2)

/-- Update the scene inside the first batch with the given id. -/
def updateBatchList (batchId stashId : String) (u : SceneUpdate) :
    List Batch → List Batch × Option (Status × Status)
  | [] => ([], none)
  | b :: rest =>
    if b.id = batchId then
      let r := updateFirstScene stashId u b.scenes
      ({ b with scenes := r.1 } :: rest, r.2)
    else
      let r := updateBatchList batchId stashId u rest
      (b :: r.1, r.2)

/-- `updateSceneStatus`: mutate the scene and persist; when the batch or the
scene is not found nothing is saved (and the cache is unchanged). -/
def updateSceneStatus (batchId stashId : String) (u : SceneUpdate)
    (st : State) : State × List Event :=
  let r := updateBatchList batchId stashId u st.batches
  match r.2 with
  | none => ({ st with batches := r.1 }, [])
  | some (o, n) =>
    ({ st with batches := r.1 },
     [Event.statusUpdate batchId stashId o n, Event.persistBatches])

/-- The initial record `createBatch` builds for one candidate id. -/
def waitingRecord (sid : String) : SceneRecord :=
  { stashId := sid, title := none, status := Status.waiting
    error := none, whisparrId := none }

/-- `createBatch`: the id is derived from the creation time
(`batch-${Date.now()}`), every record starts `waiting`, and the batch is
appended to the cache and persisted. -/
def createBatch (now : Nat) (stashIds : List String) (st : State) :
    Batch × State × List Event :=
  let batch : Batch :=
    { id := "batch-" ++ toString now
      timestamp := now
      scenes := stashIds.map waitingRecord }
  (batch, { st with batches := st.batches ++ [batch] }, [Event.persistBatches])

/-- JS `Set.add`: insert without duplicating. -/
def insertId (x : String) (l : List String) : List String :=
  if x ∈ l then l else l ++ [x]

/-- Add several ids to the cancellation set (external `cancelBatch` calls
landing during a suspension point). -/
def addAll (l : List String) (xs : List String) : List String :=
  xs.foldl (fun acc x => insertId x acc) l

/-- Outcome of one `addSceneToWhisparr` call, abstracted: a resolved result
with optional title and movie id and the `searched` / `exists` flags, or a
rejection carrying `error.message` and the optional `error.sceneTitle`. -/
inductive ApiResult where
  | ok (title : Option String) (movieId : Option Nat) (searchedFlag existsFlag : Bool)
  | err (message : String) (sceneTitle : Option String)
deriving DecidableEq

/-- The catch-branch test
`error.message.includes("already exists") || error.message.includes("File already exists")`. -/
def errIndicatesExists (msg : String) : Bool :=
  includesStr msg "already exists" || includesStr msg "File already exists"

/-- JS `a || b` on nullable titles. -/
def orTitle (a b : Option String) : Option String :=
  match a with
  | some s => some s
  | none => b

/-- The status a processed scene ends in, as a function of the call outcome. -/
def outcomeStatus : ApiResult → Status
  | ApiResult.ok _ _ sFlag eFlag =>
    if sFlag then Status.searched else if eFlag then Status.exist else Status.added
  | ApiResult.err msg _ =>
    if errIndicatesExists msg then Status.exist else Status.error

/-- A candidate scene as gathered by the content script: its stash id plus
the scraped metadata (the scene object's `title` property is the metadata
title; `scene.title || null` is modelled by `sceneTitleOpt`). -/
structure SceneInput where
  stashId : String
  md : SceneMetadata
deriving DecidableEq

/-- `scene.title || null`. -/
def sceneTitleOpt (s : SceneInput) : Option String :=
  if s.md.title = "" then none else some s.md.title

/-- Counters accumulated by the bulk-add loop for the final summary. -/
structure Counts where
  added : Nat := 0
  searched : Nat := 0
  failed : Nat := 0
  alreadyExists : Nat := 0
  filtered : Nat := 0
  cancelled : Nat := 0
deriving DecidableEq

/-- The outcome-mapping branch of the bulk-add loop (the `try`/`catch` around
`addSceneToWhisparr` plus the status update it chooses). -/
def applyOutcomeBulk (res : ApiResult) (scrapedTitle : Option String)
    (batchId stashId : String) (cnt : Counts) (st : State) :
    State × List Event × Counts :=
  match res with
  | ApiResult.ok t mid sFlag eFlag =>
    let title := orTitle t scrapedTitle
    if sFlag then
      let r := updateSceneStatus batchId stashId
        { status := some Status.searched, title := some title
          error := some none, whisparrId := some mid } st
      (r.1, r.2, { cnt with searched := cnt.searched + 1 })
    else if eFlag then
      let r := updateSceneStatus batchId stashId
        { status := some Status.exist, title := some title, error := some none } st
      (r.1, r.2, { cnt with alreadyExists := cnt.alreadyExists + 1 })
    else
      let r := updateSceneStatus batchId stashId
        { status := some Status.added, title := some title
          error := some none, whisparrId := some mid } st
      (r.1, r.2, { cnt with added := cnt.added + 1 })
  | ApiResult.err msg sceneTitle =>
    if errIndicatesExists msg then
      let r := updateSceneStatus batchId stashId
        { status := some Status.exist, title := some (orTitle sceneTitle scrapedTitle)
          error := some none } st
      (r.1, r.2, { cnt with alreadyExists := cnt.alreadyExists + 1 })
    else
      let r := updateSceneStatus batchId stashId
        { status := some Status.error, title := some (orTitle sceneTitle scrapedTitle)
          error := some (some msg) } st
      (r.1, r.2, { cnt with failed := cnt.failed + 1 })

/-- Sequential `updateSceneStatus` calls (the `for … of` marking loops). -/
def applyUpdates (batchId : String) :
    List (String × SceneUpdate) → State → State × List Event
  | [], st => (st, [])
  | (x, u) :: rest, st =>
    let r1 := updateSceneStatus batchId x u st
    let r2 := applyUpdates batchId rest r1.1
    (r2.1, r1.2 ++ r2.2)

/-- The update written for a scene marked `filtered` in the bulk pre-filter
phase. -/
def filteredUpdate (s : SceneInput) (reason : Option String) : SceneUpdate :=
  { status := some Status.filtered, title := some (sceneTitleOpt s)
    error := some reason }

/-- The update written for a scene marked `cancelled`. -/
def cancelledUpdate (s : SceneInput) : SceneUpdate :=
  { status := some Status.cancelled, title := some (sceneTitleOpt s)
    error := some (some "Cancelled by user") }

/-- The body of one bulk-add iteration that was not cancelled: set the scene
`adding`, show the progress notification, invoke the remote add and map its
outcome. -/
def processIter (api : String → ApiResult) (batchId : String) (total : Nat)
    (scene : SceneInput) (i : Nat) (cnt : Counts) (st : State) :
    State × List Event × Counts :=
  let scrapedTitle := sceneTitleOpt scene
  let r1 := updateSceneStatus batchId scene.stashId
    { status := some Status.adding, title := some scrapedTitle } st
  let evN : Event := Event.notify "Adding Scenes"
    ("Adding scene " ++ toString (i + 1) ++ " of " ++ toString total ++ "...")
  let r2 := applyOutcomeBulk (api scene.stashId) scrapedTitle batchId
    scene.stashId cnt r1.1
  (r2.1, r1.2 ++ [evN, Event.apiAdd scene.stashId] ++ r2.2.1, r2.2.2)

/-- The cancellation block of the bulk-add loop: mark the current scene and
every remaining one `cancelled`, then consume the flag. -/
def cancelRemaining (batchId : String) (scenes : List SceneInput)
    (cnt : Counts) (st : State) : State × List Event × Counts :=
  let r := applyUpdates batchId
    (scenes.map (fun s => (s.stashId, cancelledUpdate s))) st
  ({ r.1 with cancelledBatchIds :=
      r.1.cancelledBatchIds.filter (fun x => !(x = batchId)) },
   r.2, { cnt with cancelled := cnt.cancelled + scenes.length })

/-- The per-scene loop of `addMultipleScenesWithMetadata`.  `ext` supplies
the batch ids added to `cancelledBatchIds` by `cancelBatch` calls landing
during the suspension points of the previous iteration; the flag is only
inspected at the top of each iteration.  `i` is the current index and
`total` the number of scenes to process (for the progress notification). -/
def processLoop (api : String → ApiResult) (batchId : String) (total : Nat) :
    List SceneInput → List (List String) → Nat → Counts → State →
    State × List Event × Counts
  | [], _, _, cnt, st => (st, [], cnt)
  | scene :: rest, ext, i, cnt, st =>
    let st1 : State :=
      { st with cancelledBatchIds := addAll st.cancelledBatchIds (ext.headD []) }
    if batchId ∈ st1.cancelledBatchIds then
      cancelRemaining batchId (scene :: rest) cnt st1
    else
      let r2 := processIter api batchId total scene i cnt st1
      let r3 := processLoop api batchId total rest ext.tail (i + 1) r2.2.2 r2.1
      (r3.1, r2.2.1 ++ r3.2.1, r3.2.2)

/-- The final summary string of the bulk add. -/
def buildSummary (cnt : Counts) : String :=
  let parts :=
    (if 0 < cnt.added then [toString cnt.added ++ " added"] else []) ++
    (if 0 < cnt.searched then [toString cnt.searched ++ " search triggered"] else []) ++
    (if 0 < cnt.alreadyExists then [toString cnt.alreadyExists ++ " already exist"] else []) ++
    (if 0 < cnt.filtered then [toString cnt.filtered ++ " filtered"] else []) ++
    (if 0 < cnt.cancelled then [toString cnt.cancelled ++ " cancelled"] else []) ++
    (if 0 < cnt.failed then [toString cnt.failed ++ " failed"] else [])
  if parts.length = 0 then "No changes" else String.intercalate ", " parts

/-- The candidates the evaluator allows (`scenesToProcess`), in original
order. -/
def allowedScenes (compile : String → Option (String → Bool))
    (filters : List Filter) (scenes : List SceneInput) : List SceneInput :=
  scenes.filter (fun s => (shouldAddScene compile filters s.md).shouldAdd)

/-- The candidates the evaluator blocks (`filteredScenes`), in original
order, each with the evaluator's reason. -/
def blockedScenes (compile : String → Option (String → Bool))
    (filters : List Filter) (scenes : List SceneInput) :
    List (SceneInput × Option String) :=
  (scenes.filter (fun s => !(shouldAddScene compile filters s.md).shouldAdd)).map
    (fun s => (s, (shouldAddScene compile filters s.md).reason))

/-- Phase 1 of the bulk add: create the batch covering all candidates. -/
def bulkCreate (now : Nat) (scenes : List SceneInput) (st : State) :
    Batch × State × List Event :=
  createBatch now (scenes.map (fun s => s.stashId)) st

/-- Phase 2 of the bulk add: immediately mark every evaluator-blocked
candidate `filtered` with the evaluator's reason. -/
def bulkMark (compile : String → Option (String → Bool)) (now : Nat)
    (scenes : List SceneInput) (st : State) : State × List Event :=
  applyUpdates (bulkCreate now scenes st).1.id
    ((blockedScenes compile st.filters scenes).map
      (fun p => (p.1.stashId, filteredUpdate p.1 p.2)))
    (bulkCreate now scenes st).2.1

/-- `addMultipleScenesWithMetadata`: partition the candidates by the
evaluator, create one batch covering all candidates, immediately mark the
blocked ones `filtered`, then sequentially process the rest (honoring
cooperative cancellation) and emit a summary. -/
def addMultipleScenesWithMetadata (compile : String → Option (String → Bool))
    (api : String → ApiResult) (now : Nat) (ext : List (List String))
    (scenes : List SceneInput) (st : State) : State × List Event :=
  let scenesToProcess := allowedScenes compile st.filters scenes
  let filteredScenes := blockedScenes compile st.filters scenes
  let cb := bulkCreate now scenes st
  let r1 := bulkMark compile now scenes st
  if scenesToProcess.length = 0 then
    (r1.1, cb.2.2 ++ r1.2 ++
      [Event.notify "Complete" (toString filteredScenes.length ++ " scenes filtered")])
  else
    let evStart : Event := Event.notify "Adding Scenes"
      ("Adding scene 1 of " ++ toString scenesToProcess.length ++ "...")
    let cnt0 : Counts := { filtered := filteredScenes.length }
    let r2 := processLoop api cb.1.id scenesToProcess.length scenesToProcess ext 0 cnt0 r1.1
    (r2.1, cb.2.2 ++ r1.2 ++ [evStart] ++ r2.2.1 ++
      [Event.notify (if 0 < r2.2.2.cancelled then "Cancelled" else "Complete")
        (buildSummary r2.2.2)])

/-- `addSingleSceneWithMetadata`: same pre-filter-then-call discipline for a
single scene, without loop, delay or cancellation check. -/
def addSingleSceneWithMetadata (compile : String → Option (String → Bool))
    (api : String → ApiResult) (now : Nat) (stashId : String)
    (md : SceneMetadata) (st : State) : State × List Event :=
  let cb := createBatch now [stashId] st
  let scrapedTitle := if md.title = "" then none else some md.title
  let fr := shouldAddScene compile cb.2.1.filters md
  if !fr.shouldAdd then
    let r := updateSceneStatus cb.1.id stashId
      { status := some Status.filtered, title := some scrapedTitle
        error := some fr.reason } cb.2.1
    (r.1, cb.2.2 ++ r.2 ++
      [Event.notify "Filtered" ("Scene skipped: " ++ fr.reason.getD "null")])
  else
    let r1 := updateSceneStatus cb.1.id stashId
      { status := some Status.adding, title := some scrapedTitle } cb.2.1
    match api stashId with
    | ApiResult.ok t _ sFlag eFlag =>
      let title := orTitle t scrapedTitle
      if sFlag then
        let r2 := updateSceneStatus cb.1.id stashId
          { status := some Status.searched, title := some title, error := some none } r1.1
        (r2.1, cb.2.2 ++ r1.2 ++ [Event.apiAdd stashId] ++ r2.2 ++
          [Event.notify "Searching" "Scene already in Whisparr - search triggered"])
      else if eFlag then
        let r2 := updateSceneStatus cb.1.id stashId
          { status := some Status.exist, title := some title, error := some none } r1.1
        (r2.1, cb.2.2 ++ r1.2 ++ [Event.apiAdd stashId] ++ r2.2 ++
          [Event.notify "Exists" "Scene already exists with file"])
      else
        let r2 := updateSceneStatus cb.1.id stashId
          { status := some Status.added, title := some title, error := some none } r1.1
        (r2.1, cb.2.2 ++ r1.2 ++ [Event.apiAdd stashId] ++ r2.2 ++
          [Event.notify "Success" "Scene added to Whisparr"])
    | ApiResult.err msg sceneTitle =>
      if errIndicatesExists msg then
        let r2 := updateSceneStatus cb.1.id stashId
          { status := some Status.exist, title := some (orTitle sceneTitle scrapedTitle)
            error := some none } r1.1
        (r2.1, cb.2.2 ++ r1.2 ++ [Event.apiAdd stashId] ++ r2.2 ++
          [Event.notify "Exists" "Scene already exists with file"])
      else
        let r2 := updateSceneStatus cb.1.id stashId
          { status := some Status.error, title := some (orTitle sceneTitle scrapedTitle)
            error := some (some msg) } r1.1
        (r2.1, cb.2.2 ++ r1.2 ++ [Event.apiAdd stashId] ++ r2.2 ++
          [Event.notify "Error" msg])

/-- `retryScene`: looked-up ids that are absent reject with no state change;
otherwise the status is reset to `adding` (with no check of the current
status) and the add call is re-invoked and re-mapped.  The result's third
component is the rejection message, `none` on success. -/
def retryScene (api : String → ApiResult) (batchId stashId : String)
    (st : State) : State × List Event × Option String :=
  match st.batches.find? (fun b => b.id = batchId) with
  | none => (st, [], some "Batch not found")
  | some batch =>
    match batch.scenes.find? (fun s => s.stashId = stashId) with
    | none => (st, [], some "Scene not found")
    | some scene =>
      let r1 := updateSceneStatus batchId stashId
        { status := some Status.adding, error := some none } st
      match api stashId with
      | ApiResult.ok t _ sFlag eFlag =>
        let title := orTitle t scene.title
        if sFlag then
          let r2 := updateSceneStatus batchId stashId
            { status := some Status.searched, title := some title, error := some none } r1.1
          (r2.1, r1.2 ++ [Event.apiAdd stashId] ++ r2.2, none)
        else if eFlag then
          let r2 := updateSceneStatus batchId stashId
            { status := some Status.exist, title := some title, error := some none } r1.1
          (r2.1, r1.2 ++ [Event.apiAdd stashId] ++ r2.2, none)
        else
          let r2 := updateSceneStatus batchId stashId
            { status := some Status.added, title := some title, error := some none } r1.1
          (r2.1, r1.2 ++ [Event.apiAdd stashId] ++ r2.2, none)
      | ApiResult.err msg sceneTitle =>
        if errIndicatesExists msg then
          let r2 := updateSceneStatus batchId stashId
            { status := some Status.exist, title := some (orTitle sceneTitle scene.title)
              error := some none } r1.1
          (r2.1, r1.2 ++ [Event.apiAdd stashId] ++ r2.2, none)
        else
          let r2 := updateSceneStatus batchId stashId
            { status := some Status.error, error := some (some msg) } r1.1
          (r2.1, r1.2 ++ [Event.apiAdd stashId] ++ r2.2, none)

/-- Sequentially retry the collected failed scenes; a rejection of one retry
propagates and aborts the rest (the ids collected here always exist, so in
runs reachable from the collection this never happens). -/
def retryAllGo (api : String → ApiResult) :
    List (String × String) → State → State × List Event
  | [], st => (st, [])
  | (b, s) :: rest, st =>
    let r := retryScene api b s st
    match r.2.2 with
    | some _ => (st, [])
    | none =>
      let r2 := retryAllGo api rest r.1
      (r2.1, r.2.1 ++ r2.2)

/-- `retryAllFailed`: collect every scene in `error` status across all
batches, then retry each sequentially. -/
def retryAllFailed (api : String → ApiResult) (st : State) : State × List Event :=
  let failedScenes :=
    (st.batches.map (fun b =>
      (b.scenes.filter (fun s => s.status = Status.error)).map
        (fun s => (b.id, s.stashId)))).flatten
  retryAllGo api failedScenes st

/-- `cancelBatch`: requires the batch to exist and to have a scene in
`waiting` or `adding`; on success adds the batch id to `cancelledBatchIds`
(no persistence).  The second component is the rejection message. -/
def cancelBatch (batchId : String) (st : State) : State × Option String :=
  match st.batches.find? (fun b => b.id = batchId) with
  | none => (st, some "Batch not found")
  | some batch =>
    if batch.scenes.any (fun s =>
        s.status = Status.waiting || s.status = Status.adding) then
      ({ st with cancelledBatchIds := insertId batchId st.cancelledBatchIds }, none)
    else
      (st, some "No pending scenes to cancel")

/-- The status of the first matching scene of the first matching batch, read
from the current cache (the JS `scene` binding aliases this record, so reads
after an update observe the updated value). -/
def currentStatus (batchId stashId : String) (st : State) : Option Status :=
  match st.batches.find? (fun b => b.id = batchId) with
  | none => none
  | some b => (b.scenes.find? (fun s => s.stashId = stashId)).map (fun s => s.status)

/-- `undoScene`: only allowed from `added`/`searched`; transitions through
`removing`; on delete failure the catch block writes
`scene.status === 'removing' ? 'added' : scene.status` — but `scene` aliases
the record already set to `removing`, so the write is re-read from the
current cache — and rethrows.  `apiDel` returns `none` on success or the
failure message. -/
def undoScene (apiDel : String → Option Nat → Option String)
    (batchId stashId : String) (st : State) : State × List Event × Option String :=
  match st.batches.find? (fun b => b.id = batchId) with
  | none => (st, [], some "Batch not found")
  | some batch =>
    match batch.scenes.find? (fun s => s.stashId = stashId) with
    | none => (st, [], some "Scene not found")
    | some scene =>
      if !(scene.status = Status.added || scene.status = Status.searched) then
        (st, [], some "Scene cannot be undone - not in added state")
      else
        let r1 := updateSceneStatus batchId stashId
          { status := some Status.removing, error := some none } st
        match apiDel stashId scene.whisparrId with
        | none =>
          let r2 := updateSceneStatus batchId stashId
            { status := some Status.removed, error := some none
              whisparrId := some none } r1.1
          (r2.1, r1.2 ++ [Event.apiDelete stashId] ++ r2.2 ++
            [Event.notify "Removed" "Scene removed from Whisparr"], none)
        | some msg =>
          let cur := currentStatus batchId stashId r1.1
          let newStatus :=
            if cur = some Status.removing then Status.added
            else cur.getD scene.status
          let r2 := updateSceneStatus batchId stashId
            { status := some newStatus, error := some (some msg) } r1.1
          (r2.1, r1.2 ++ [Event.apiDelete stashId] ++ r2.2, some msg)

/-- A partial filter update (`{...filter, ...updates}`). -/
structure FilterUpdate where
  type : Option String := none
  mode : Option String := none
  value : Option String := none
  enabled : Option Bool := none
deriving DecidableEq

/-- Merge a partial update into a filter. -/
def applyFilterUpdate (f : Filter) (u : FilterUpdate) : Filter :=
  { id := f.id
    type := u.type.getD f.type
    mode := u.mode.getD f.mode
    value := u.value.getD f.value
    enabled := u.enabled.getD f.enabled }

/-- Replace the first filter with the given id; report whether one was found. -/
def updateFirstFilter (filterId : String) (u : FilterUpdate) :
    List Filter → List Filter × Bool
  | [] => ([], false)
  | f :: rest =>
    if f.id = filterId then (applyFilterUpdate f u :: rest, true)
    else
      let r := updateFirstFilter filterId u rest
      (f :: r.1, r.2)

/-- Toggle the `enabled` flag of the first filter with the given id. -/
def toggleFirstFilter (filterId : String) :
    List Filter → List Filter × Bool
  | [] => ([], false)
  | f :: rest =>
    if f.id = filterId then ({ f with enabled := !f.enabled } :: rest, true)
    else
      let r := toggleFirstFilter filterId rest
      (f :: r.1, r.2)

/-- The `updateFilter` message handler: absent ids respond
`Filter not found` with no save; found ids merge the update and persist. -/
def updateFilterCmd (filterId : String) (u : FilterUpdate) (st : State) :
    State × List Event × Option String :=
  let r := updateFirstFilter filterId u st.filters
  if r.2 then ({ st with filters := r.1 }, [Event.persistFilters], none)
  else (st, [], some "Filter not found")

/-- The `toggleFilter` message handler. -/
def toggleFilterCmd (filterId : String) (st : State) :
    State × List Event × Option String :=
  let r := toggleFirstFilter filterId st.filters
  if r.2 then ({ st with filters := r.1 }, [Event.persistFilters], none)
  else (st, [], some "Filter not found")

/-- The `deleteFilter` message handler: filters the list by id and always
persists and responds success, whether or not the id was present. -/
def deleteFilterCmd (filterId : String) (st : State) :
    State × List Event × Option String :=
  ({ st with filters := st.filters.filter (fun f => !(f.id = filterId)) },
   [Event.persistFilters], none)

/-- The `clearBatches` message handler. -/
def clearBatchesCmd (st : State) : State × List Event :=
  ({ st with batches := [] }, [Event.persistBatches])

/-- One legacy filter category (`{mode, values}`). -/
structure OldCategory where
  mode : Option String
  values : List String
deriving DecidableEq

/-- The legacy category-based persisted filter shape. -/
structure OldFilters where
  studios : Option OldCategory
  performers : Option OldCategory
  names : Option OldCategory
  tags : Option OldCategory
deriving DecidableEq

/-- JS `config.mode || 'blocklist'` (absent or empty falls back). -/
def modeOrDefault (m : Option String) : String :=
  match m with
  | none => "blocklist"
  | some s => if s = "" then "blocklist" else s

/-- The regex metacharacters escaped by `escapeRegex`
(`.*+?^$\x7b\x7d()|[]\`). -/
def isRegexSpecial (c : Char) : Bool :=
  c = '.' || c = '*' || c = '+' || c = '?' || c = '^' || c = '$' ||
  c = Char.ofNat 123 || c = Char.ofNat 125 ||
  c = '(' || c = ')' || c = '|' || c = '[' || c = ']' || c = '\\'

/-- `escapeRegex`: prefix every regex metacharacter with a backslash. -/
def escapeRegex (str : String) : String :=
  String.mk ((str.data.map
    (fun c => if isRegexSpecial c then ['\\', c] else [c])).flatten)

/-- One rule per legacy value, with a running position for id generation.
Ids are generated by `filter-${Date.now()}-${random}` in the source; the
generator is abstracted as `mkId` applied to the rule's overall position. -/
def migrateVals (mkId : Nat → String) (t m : String) :
    Nat → List String → List Filter
  | _, [] => []
  | i, v :: vs =>
    { id := mkId i, type := t, mode := m, value := escapeRegex v, enabled := true }
      :: migrateVals mkId t m (i + 1) vs

/-- One legacy category's contribution to the migration (`config && config.values
&& config.values.length > 0` guards the loop over its values). -/
def migrateCat (mkId : Nat → String) (base : Nat) (t : String)
    (cfg : Option OldCategory) : List Filter :=
  match cfg with
  | none => []
  | some c =>
    if 0 < c.values.length then
      migrateVals mkId t (modeOrDefault c.mode) base c.values
    else []

/-- The plain-text values of a legacy category (empty when absent). -/
def catValues (cfg : Option OldCategory) : List String :=
  match cfg with
  | none => []
  | some c => c.values

/-- The stored mode of a legacy category. -/
def catMode (cfg : Option OldCategory) : Option String :=
  match cfg with
  | none => none
  | some c => c.mode

/-- `migrateOldFilters`: categories are visited in the fixed order
`studios, performers, names, tags`; every value of a present, non-empty
category yields one enabled rule with the category's mode (defaulting to
blocklist) and the escaped value as pattern. -/
def migrateOldFilters (mkId : Nat → String) (old : OldFilters) : List Filter :=
  let l1 := migrateCat mkId 0 "studio" old.studios
  let l2 := migrateCat mkId l1.length "performer" old.performers
  let l3 := migrateCat mkId (l1.length + l2.length) "name" old.names
  let l4 := migrateCat mkId (l1.length + l2.length + l3.length) "tag" old.tags
  l1 ++ l2 ++ l3 ++ l4

/-- The §4.2 state machine edges, with the cancellation edge starting from
`waiting` (the loop marks scenes that have not yet been set to `adding`). -/
def allowedEdge : Status → Status → Bool
  | Status.waiting, Status.filtered => true
  | Status.waiting, Status.adding => true
  | Status.waiting, Status.cancelled => true
  | Status.adding, Status.added => true
  | Status.adding, Status.searched => true
  | Status.adding, Status.exist => true
  | Status.adding, Status.error => true
  | Status.error, Status.adding => true
  | Status.added, Status.removing => true
  | Status.searched, Status.removing => true
  | Status.removing, Status.removed => true
  | Status.removing, Status.added => true
  | Status.removing, Status.searched => true
  | _, _ => false

/-- An event respects the state machine when any status update it performs
follows an allowed edge. -/
def edgeOKEvent : Event → Bool
  | Event.statusUpdate _ _ o n => allowedEdge o n
  | _ => true

/-- The stash ids of the remote add calls recorded in a trace. -/
def apiAddsOf (evs : List Event) : List String :=
  evs.filterMap (fun e =>
    match e with
    | Event.apiAdd x => some x
    | _ => none)

/-- The record the scene with the given stash id resolves to in a batch
(JS `Array.find`, first match). -/
def sceneOf (b : Batch) (x : String) : Option SceneRecord :=
  b.scenes.find? (fun s => s.stashId = x)

/-- The batch a batch id resolves to (first match). -/
def batchOf (st : State) (batchId : String) : Option Batch :=
  st.batches.find? (fun b => b.id = batchId)

/-- A concrete regex oracle for closed instances: the pattern matches
exactly itself. -/
def wCompile : String → Option (String → Bool) := fun p => some (fun v => v == p)

/-- A concrete blocklist rule on the studio `X`. -/
def wRule : Filter :=
  { id := "f1", type := "studio", mode := "blocklist", value := "X", enabled := true }

/-- Concrete metadata the rule `wRule` passes. -/
def wMdPass : SceneMetadata := { studio := "Y", performers := [], tags := [], title := "t1" }

/-- Concrete metadata the rule `wRule` blocks. -/
def wMdBlock : SceneMetadata := { studio := "X", performers := [], tags := [], title := "t2" }

/-- A concrete state holding only the rule `wRule`. -/
def wState : State := { batches := [], cancelledBatchIds := [], filters := [wRule] }

/-- A concrete add oracle that always resolves to a plain successful add. -/
def wApiAdded : String → ApiResult := fun _ => ApiResult.ok none none false false

/-- Two candidates sharing one stash id, the first allowed and the second
blocked by `wRule`. -/
def wScenesDup : List SceneInput := [⟨"a", wMdPass⟩, ⟨"a", wMdBlock⟩]

/-- Three distinct allowed candidates. -/
def wScenes3 : List SceneInput := [⟨"a", wMdPass⟩, ⟨"b", wMdPass⟩, ⟨"c", wMdPass⟩]

/-- A concrete state holding one batch with one `searched` scene. -/
def wStateSearched : State :=
  { batches := [⟨"b1", 0, [⟨"s1", none, Status.searched, none, none⟩]⟩]
    cancelledBatchIds := [], filters := [] }

/-- A concrete state holding one batch with one `filtered` scene. -/
def wStateFiltered : State :=
  { batches := [⟨"b1", 0, [⟨"s1", none, Status.filtered, some "r", none⟩]⟩]
    cancelledBatchIds := [], filters := [] }

/-- A concrete state holding one batch with one `waiting` scene. -/
def wStateWaiting : State :=
  { batches := [⟨"b1", 0, [⟨"s1", none, Status.waiting, none, none⟩]⟩]
    cancelledBatchIds := [], filters := [] }

/-- A concrete state holding one batch with one `error` scene. -/
def wStateError : State :=
  { batches := [⟨"b1", 0, [⟨"s1", none, Status.error, some "old", none⟩]⟩]
    cancelledBatchIds := [], filters := [] }

/-- A concrete delete oracle that always fails with message `boom`. -/
def wApiDelFail : String → Option Nat → Option String := fun _ _ => some "boom"

/-- A concrete disabled rule. -/
def wRuleDisabled : Filter :=
  { id := "f2", type := "studio", mode := "blocklist", value := "X", enabled := false }

/-- A concrete empty state. -/
def wStateEmpty : State := { batches := [], cancelledBatchIds := [], filters := [] }

/-- Three distinct candidates, the middle one blocked by `wRule`. -/
def wScenesMix : List SceneInput := [⟨"a", wMdPass⟩, ⟨"b", wMdBlock⟩, ⟨"c", wMdPass⟩]

/-- A concrete id generator for migration instances. -/
def wMkId : Nat → String := fun n => "id" ++ toString n

/-- A concrete state holding one batch of three `waiting` scenes. -/
def wStateBulk : State :=
  { batches := [⟨"B1", 0, [waitingRecord "a", waitingRecord "b", waitingRecord "c"]⟩]
    cancelledBatchIds := [], filters := [] }

theorem string_data_append (a b : String) : (a ++ b).data = a.data ++ b.data := by
  cases a
  cases b
  rfl

theorem includesStr_refl (s : String) : includesStr s s = true := by
  simp [includesStr]

theorem includesStr_append_left (a b sub : String)
    (h : includesStr a sub = true) : includesStr (a ++ b) sub = true := by
  have h' : sub.data <:+: a.data := by simpa [includesStr] using h
  obtain ⟨s, t, hst⟩ := h'
  have h2 : sub.data <:+: (a ++ b).data := by
    refine ⟨s, t ++ b.data, ?_⟩
    rw [string_data_append, ← hst]
    simp
  simpa [includesStr] using h2

theorem includesStr_append_right (a b sub : String)
    (h : includesStr b sub = true) : includesStr (a ++ b) sub = true := by
  have h' : sub.data <:+: b.data := by simpa [includesStr] using h
  obtain ⟨s, t, hst⟩ := h'
  have h2 : sub.data <:+: (a ++ b).data := by
    refine ⟨a.data ++ s, t, ?_⟩
    rw [string_data_append, ← hst]
    simp
  simpa [includesStr] using h2

theorem select_values_match (t : String) (md : SceneMetadata)
    (ht : t = "studio" ∨ t = "performer" ∨ t = "name" ∨ t = "tag")
    (test : String → Bool) :
    regexMatchesValue test (getSceneValueByType t md) = (specSelectValues t md).any test := by
  rcases ht with h | h | h | h <;>
    simp [h, getSceneValueByType, specSelectValues, regexMatchesValue]

theorem evaluateFilter_pass_iff (compile : String → Option (String → Bool))
    (r : Filter) (md : SceneMetadata)
    (ht : r.type = "studio" ∨ r.type = "performer" ∨ r.type = "name" ∨ r.type = "tag") :
    (evaluateFilter compile r md).pass = !(specRuleFails compile md r) := by
  cases he : r.enabled
  · simp [evaluateFilter, specRuleFails, he]
  · by_cases hv : trimStr r.value = ""
    · simp [evaluateFilter, specRuleFails, he, hv]
    · cases hc : compile r.value
      · simp [evaluateFilter, specRuleFails, he, hv, hc]
      · rename_i test
        by_cases hm : r.mode = "blocklist" <;>
          cases ha : (specSelectValues r.type md).any test <;>
            simp [evaluateFilter, specRuleFails, he, hv, hc, hm, ha,
              select_values_match r.type md ht]

theorem evaluateFilter_fail_reason (compile : String → Option (String → Bool))
    (r : Filter) (md : SceneMetadata)
    (h : (evaluateFilter compile r md).pass = false) :
    ∃ s, (evaluateFilter compile r md).reason = some s ∧
      includesStr s (capitalize r.type) = true ∧ includesStr s r.value = true := by
  cases he : r.enabled
  · exfalso
    simp [evaluateFilter, he] at h
  · by_cases hv : trimStr r.value = ""
    · exfalso
      simp [evaluateFilter, he, hv] at h
    · cases hc : compile r.value
      · exfalso
        simp [evaluateFilter, he, hv, hc] at h
      · rename_i test
        by_cases hm : r.mode = "blocklist"
        · cases ha : regexMatchesValue test (getSceneValueByType r.type md)
          · exfalso
            simp [evaluateFilter, he, hv, hc, hm, ha] at h
          · refine ⟨"Blocked " ++ capitalize r.type ++ ": /" ++ r.value ++ "/",
              by simp [evaluateFilter, he, hv, hc, hm, ha], ?_, ?_⟩
            · exact includesStr_append_left _ _ _ (includesStr_append_left _ _ _
                (includesStr_append_left _ _ _ (includesStr_append_right _ _ _
                  (includesStr_refl _))))
            · exact includesStr_append_left _ _ _ (includesStr_append_right _ _ _
                (includesStr_refl _))
        · cases ha : regexMatchesValue test (getSceneValueByType r.type md)
          · refine ⟨capitalize r.type ++ " doesn't match: /" ++ r.value ++ "/",
              by simp [evaluateFilter, he, hv, hc, hm, ha], ?_, ?_⟩
            · exact includesStr_append_left _ _ _ (includesStr_append_left _ _ _
                (includesStr_append_left _ _ _ (includesStr_refl _)))
            · exact includesStr_append_left _ _ _ (includesStr_append_right _ _ _
                (includesStr_refl _))
          · exfalso
            simp [evaluateFilter, he, hv, hc, hm, ha] at h

theorem shouldAddScene_all_pass (compile : String → Option (String → Bool))
    (filters : List Filter) (md : SceneMetadata)
    (ht : ∀ r ∈ filters,
      r.type = "studio" ∨ r.type = "performer" ∨ r.type = "name" ∨ r.type = "tag")
    (h : ∀ r ∈ filters, specRuleFails compile md r = false) :
    shouldAddScene compile filters md = ⟨true, none, none⟩ := by
  induction filters with
  | nil => rfl
  | cons f rest ih =>
    have hpass : (evaluateFilter compile f md).pass = true := by
      rw [evaluateFilter_pass_iff compile f md (ht f (by simp))]
      simp [h f (by simp)]
    simp only [shouldAddScene, hpass]
    exact ih (fun r hr => ht r (by simp [hr])) (fun r hr => h r (by simp [hr]))

theorem shouldAddScene_first_fail (compile : String → Option (String → Bool))
    (md : SceneMetadata) (pre : List Filter) (r : Filter) (post : List Filter)
    (htr : r.type = "studio" ∨ r.type = "performer" ∨ r.type = "name" ∨ r.type = "tag")
    (htp : ∀ p ∈ pre,
      p.type = "studio" ∨ p.type = "performer" ∨ p.type = "name" ∨ p.type = "tag")
    (hpre : ∀ p ∈ pre, specRuleFails compile md p = false)
    (hr : specRuleFails compile md r = true) :
    shouldAddScene compile (pre ++ r :: post) md =
      ⟨false, (evaluateFilter compile r md).reason, some r.id⟩ := by
  induction pre with
  | nil =>
    have hfail : (evaluateFilter compile r md).pass = false := by
      rw [evaluateFilter_pass_iff compile r md htr]
      simp [hr]
    simp [shouldAddScene, hfail]
  | cons p rest ih =>
    have hpass : (evaluateFilter compile p md).pass = true := by
      rw [evaluateFilter_pass_iff compile p md (htp p (by simp))]
      simp [hpre p (by simp)]
    simp only [List.cons_append, shouldAddScene, hpass]
    exact ih (fun q hq => htp q (by simp [hq])) (fun q hq => hpre q (by simp [hq]))

/-- Claim C1: `shouldAddScene` walks the rules in stored list order; for each
enabled, non-blank rule it tests the rule's regex against the scene value
selected by the rule's type (list values match when some element matches,
single values directly); the first rule that fails per its mode blocks the
scene immediately with `allowed = false`, a reason naming the rule's type and
pattern, and that rule's id, and no later rule affects the result; if every
rule passes the result is allowed with null reason and null rule id.  The
reference behaviour is `specRuleFails` / `specSelectValues`, translated from
the specification's words. -/
theorem C1_filter_evaluation (compile : String → Option (String → Bool))
    (filters : List Filter) (md : SceneMetadata)
    (ht : ∀ r ∈ filters,
      r.type = "studio" ∨ r.type = "performer" ∨ r.type = "name" ∨ r.type = "tag") :
    ((∀ r ∈ filters, specRuleFails compile md r = false) →
      shouldAddScene compile filters md = ⟨true, none, none⟩) ∧
    (∀ pre r post, filters = pre ++ r :: post →
      (∀ p ∈ pre, specRuleFails compile md p = false) →
      specRuleFails compile md r = true →
      (shouldAddScene compile filters md).shouldAdd = false ∧
      (shouldAddScene compile filters md).filterId = some r.id ∧
      (∃ s, (shouldAddScene compile filters md).reason = some s ∧
        includesStr s (capitalize r.type) = true ∧ includesStr s r.value = true) ∧
      (∀ post', shouldAddScene compile (pre ++ r :: post') md =
        shouldAddScene compile filters md)) := by
  constructor
  · exact fun h => shouldAddScene_all_pass compile filters md ht h
  · intro pre r post hsplit hpre hr
    subst hsplit
    have htr : r.type = "studio" ∨ r.type = "performer" ∨ r.type = "name" ∨ r.type = "tag" :=
      ht r (by simp)
    have htp : ∀ p ∈ pre,
        p.type = "studio" ∨ p.type = "performer" ∨ p.type = "name" ∨ p.type = "tag" :=
      fun p hp => ht p (List.mem_append.mpr (Or.inl hp))
    have hmain := shouldAddScene_first_fail compile md pre r post htr htp hpre hr
    have hfail : (evaluateFilter compile r md).pass = false := by
      rw [evaluateFilter_pass_iff compile r md htr]
      simp [hr]
    obtain ⟨s, hs, hs1, hs2⟩ := evaluateFilter_fail_reason compile r md hfail
    refine ⟨by simp [hmain], by simp [hmain], ⟨s, by simp [hmain, hs], hs1, hs2⟩, ?_⟩
    intro post'
    rw [hmain]
    exact shouldAddScene_first_fail compile md pre r post' htr htp hpre hr

/-- Claim C1 witness: a concrete blocklist rule blocking a concrete scene. -/
theorem C1_filter_evaluation_witness :
    (shouldAddScene wCompile [wRule] wMdBlock).shouldAdd = false ∧
    (shouldAddScene wCompile [wRule] wMdBlock).filterId = some "f1" ∧
    shouldAddScene wCompile [wRule] wMdPass = ⟨true, none, none⟩ := by
  have h := C1_filter_evaluation wCompile [wRule] wMdBlock (by decide)
  have h2 := (h.2 [] wRule [] rfl (by simp) (by decide))
  have h3 := C1_filter_evaluation wCompile [wRule] wMdPass (by decide)
  exact ⟨h2.1, h2.2.1, h3.1 (by decide)⟩

/-- Degenerate rules (disabled, blank pattern, or uncompilable pattern)
evaluate to an unconditional pass. -/
theorem evaluateFilter_degenerate (compile : String → Option (String → Bool))
    (r : Filter) (md : SceneMetadata)
    (h : r.enabled = false ∨ trimStr r.value = "" ∨ compile r.value = none) :
    evaluateFilter compile r md = ⟨true, none⟩ := by
  rcases h with h | h | h
  · simp [evaluateFilter, h]
  · simp [evaluateFilter, h]
  · cases he : r.enabled
    · simp [evaluateFilter, he]
    · by_cases hv : trimStr r.value = ""
      · simp [evaluateFilter, he, hv]
      · simp [evaluateFilter, he, hv, h]

/-- Claim C2: evaluation is total (the embedding is a total function: it
returns a result for every rule list and metadata, never throwing); each
disabled, blank-pattern, or uncompilable-pattern rule contributes a pass and
never blocks or allows a scene on its own, so when the rule list is empty or
consists only of such rules the result is `allowed = true` for all
metadata. -/
theorem C2_degenerate_rules_pass (compile : String → Option (String → Bool))
    (filters : List Filter) (md : SceneMetadata)
    (h : ∀ r ∈ filters,
      r.enabled = false ∨ trimStr r.value = "" ∨ compile r.value = none) :
    (∀ r ∈ filters, evaluateFilter compile r md = ⟨true, none⟩) ∧
    shouldAddScene compile filters md = ⟨true, none, none⟩ := by
  constructor
  · exact fun r hr => evaluateFilter_degenerate compile r md (h r hr)
  · induction filters with
    | nil => rfl
    | cons f rest ih =>
      have hf := evaluateFilter_degenerate compile f md (h f (by simp))
      simp only [shouldAddScene, hf]
      exact ih (fun r hr => h r (by simp [hr]))

/-- Claim C2 witness: a disabled rule never blocks. -/
theorem C2_degenerate_rules_pass_witness :
    shouldAddScene wCompile [wRuleDisabled] wMdBlock = ⟨true, none, none⟩ :=
  (C2_degenerate_rules_pass wCompile [wRuleDisabled] wMdBlock
    (fun r hr => Or.inl (by
      have h := List.mem_singleton.mp hr
      subst h
      rfl))).2

theorem applyUpdate_stashId (s : SceneRecord) (u : SceneUpdate) :
    (applyUpdate s u).stashId = s.stashId := rfl

theorem applyUpdate_status (s : SceneRecord) (u : SceneUpdate) :
    (applyUpdate s u).status = u.status.getD s.status := rfl

theorem updateFirstScene_map_stashId (x : String) (u : SceneUpdate)
    (l : List SceneRecord) :
    ((updateFirstScene x u l).1).map SceneRecord.stashId = l.map SceneRecord.stashId := by
  induction l with
  | nil => rfl
  | cons s rest ih =>
    by_cases h : s.stashId = x <;> simp [updateFirstScene, h, applyUpdate_stashId, ih]

theorem updateFirstScene_not_found (x : String) (u : SceneUpdate)
    (l : List SceneRecord) (h : l.find? (fun s => s.stashId = x) = none) :
    updateFirstScene x u l = (l, none) := by
  induction l with
  | nil => rfl
  | cons s rest ih =>
    rw [List.find?_cons] at h
    by_cases hs : s.stashId = x
    · simp [hs] at h
    · simp only [hs, decide_False] at h
      simp [updateFirstScene, hs, ih h]

theorem updateFirstScene_found (x : String) (u : SceneUpdate)
    (l : List SceneRecord) (s : SceneRecord)
    (h : l.find? (fun r => r.stashId = x) = some s) :
    (updateFirstScene x u l).2 = some (s.status, (applyUpdate s u).status) ∧
    (updateFirstScene x u l).1.find? (fun r => r.stashId = x) = some (applyUpdate s u) := by
  induction l with
  | nil => simp at h
  | cons c rest ih =>
    rw [List.find?_cons] at h
    by_cases hc : c.stashId = x
    · simp only [hc, decide_True] at h
      cases h
      refine ⟨by simp [updateFirstScene, hc], ?_⟩
      simp [updateFirstScene, hc, List.find?_cons, applyUpdate_stashId]
    · simp only [hc, decide_False] at h
      have := ih h
      simp [updateFirstScene, hc, List.find?_cons, this.1, this.2]

theorem updateFirstScene_other (x : String) (u : SceneUpdate)
    (l : List SceneRecord) (y : String) (h : ¬ y = x) :
    (updateFirstScene x u l).1.find? (fun s => s.stashId = y) =
      l.find? (fun s => s.stashId = y) := by
  induction l with
  | nil => rfl
  | cons s rest ih =>
    have hxy : ¬ x = y := fun he => h he.symm
    by_cases hs : s.stashId = x
    · have hy : ¬ s.stashId = y := by
        intro hy
        exact h (hy ▸ hs)
      simp [updateFirstScene, hs, List.find?_cons, applyUpdate_stashId, hy, hxy]
    · by_cases hy : s.stashId = y
      · simp [updateFirstScene, hs, List.find?_cons, hy, h]
      · simp [updateFirstScene, hs, List.find?_cons, hy, ih]

theorem updateBatchList_map_id (B x : String) (u : SceneUpdate) (bs : List Batch) :
    (updateBatchList B x u bs).1.map Batch.id = bs.map Batch.id := by
  induction bs with
  | nil => rfl
  | cons b rest ih =>
    by_cases h : b.id = B <;> simp [updateBatchList, h, ih]

theorem updateBatchList_not_found (B x : String) (u : SceneUpdate)
    (bs : List Batch) (h : bs.find? (fun b => b.id = B) = none) :
    updateBatchList B x u bs = (bs, none) := by
  induction bs with
  | nil => rfl
  | cons b rest ih =>
    rw [List.find?_cons] at h
    by_cases hb : b.id = B
    · simp [hb] at h
    · simp only [hb, decide_False] at h
      simp [updateBatchList, hb, ih h]

theorem updateBatchList_found (B x : String) (u : SceneUpdate)
    (bs : List Batch) (b : Batch) (h : bs.find? (fun c => c.id = B) = some b) :
    (updateBatchList B x u bs).2 = (updateFirstScene x u b.scenes).2 ∧
    (updateBatchList B x u bs).1.find? (fun c => c.id = B) =
      some { b with scenes := (updateFirstScene x u b.scenes).1 } := by
  induction bs with
  | nil => simp at h
  | cons c rest ih =>
    rw [List.find?_cons] at h
    by_cases hc : c.id = B
    · simp only [hc, decide_True] at h
      cases h
      refine ⟨by simp [updateBatchList, hc], ?_⟩
      simp [updateBatchList, hc, List.find?_cons]
    · simp only [hc, decide_False] at h
      have := ih h
      simp [updateBatchList, hc, List.find?_cons, this.1, this.2]

theorem updateBatchList_other (B x : String) (u : SceneUpdate)
    (bs : List Batch) (Bo : String) (h : ¬ Bo = B) :
    (updateBatchList B x u bs).1.find? (fun b => b.id = Bo) =
      bs.find? (fun b => b.id = Bo) := by
  induction bs with
  | nil => rfl
  | cons b rest ih =>
    have hxy : ¬ B = Bo := fun he => h he.symm
    by_cases hb : b.id = B
    · have hy : ¬ b.id = Bo := by
        intro hy
        exact h (hy ▸ hb)
      simp [updateBatchList, hb, List.find?_cons, hy, hxy]
    · by_cases hy : b.id = Bo
      · simp [updateBatchList, hb, List.find?_cons, hy, h]
      · simp [updateBatchList, hb, List.find?_cons, hy, ih]

theorem updateBatchList_append_fresh (B x : String) (u : SceneUpdate)
    (bs0 : List Batch) (b : Batch)
    (hfresh : ∀ c ∈ bs0, ¬ c.id = B) (hb : b.id = B) :
    updateBatchList B x u (bs0 ++ [b]) =
      (bs0 ++ [{ b with scenes := (updateFirstScene x u b.scenes).1 }],
       (updateFirstScene x u b.scenes).2) := by
  induction bs0 with
  | nil => simp [updateBatchList, hb]
  | cons c rest ih =>
    have hc : ¬ c.id = B := hfresh c (by simp)
    have := ih (fun d hd => hfresh d (by simp [hd]))
    simp [updateBatchList, hc, this]

theorem updateSceneStatus_cancelledIds (B x : String) (u : SceneUpdate) (st : State) :
    (updateSceneStatus B x u st).1.cancelledBatchIds = st.cancelledBatchIds := by
  cases h : (updateBatchList B x u st.batches).2 <;>
    simp [updateSceneStatus, h]

theorem updateSceneStatus_filters (B x : String) (u : SceneUpdate) (st : State) :
    (updateSceneStatus B x u st).1.filters = st.filters := by
  cases h : (updateBatchList B x u st.batches).2 <;>
    simp [updateSceneStatus, h]

theorem updateSceneStatus_batches (B x : String) (u : SceneUpdate) (st : State) :
    (updateSceneStatus B x u st).1.batches = (updateBatchList B x u st.batches).1 := by
  cases h : (updateBatchList B x u st.batches).2 <;>
    simp [updateSceneStatus, h]

theorem updateSceneStatus_map_id (B x : String) (u : SceneUpdate) (st : State) :
    (updateSceneStatus B x u st).1.batches.map Batch.id = st.batches.map Batch.id := by
  rw [updateSceneStatus_batches, updateBatchList_map_id]

theorem batchOf_update_other (B x Bo : String) (u : SceneUpdate) (st : State)
    (h : ¬ Bo = B) :
    batchOf (updateSceneStatus B x u st).1 Bo = batchOf st Bo := by
  unfold batchOf
  rw [updateSceneStatus_batches, updateBatchList_other B x u st.batches Bo h]

theorem batchOf_update_self (B x : String) (u : SceneUpdate) (st : State)
    (b : Batch) (hb : batchOf st B = some b) :
    batchOf (updateSceneStatus B x u st).1 B =
      some { b with scenes := (updateFirstScene x u b.scenes).1 } := by
  unfold batchOf
  rw [updateSceneStatus_batches]
  exact (updateBatchList_found B x u st.batches b hb).2

theorem updateSceneStatus_events_found (B x : String) (u : SceneUpdate) (st : State)
    (b : Batch) (s : SceneRecord) (hb : batchOf st B = some b)
    (hs : b.scenes.find? (fun r => r.stashId = x) = some s) :
    (updateSceneStatus B x u st).2 =
      [Event.statusUpdate B x s.status (applyUpdate s u).status, Event.persistBatches] := by
  have h1 := (updateBatchList_found B x u st.batches b hb).1
  have h2 := (updateFirstScene_found x u b.scenes s hs).1
  simp [updateSceneStatus, h1, h2]

theorem updateSceneStatus_no_batch (B x : String) (u : SceneUpdate) (st : State)
    (hb : batchOf st B = none) :
    updateSceneStatus B x u st = (st, []) := by
  have h := updateBatchList_not_found B x u st.batches hb
  simp [updateSceneStatus, h]

theorem updateFirstScene_none (x : String) (u : SceneUpdate) (l : List SceneRecord)
    (h : (updateFirstScene x u l).2 = none) : (updateFirstScene x u l).1 = l := by
  induction l with
  | nil => rfl
  | cons s rest ih =>
    by_cases hs : s.stashId = x
    · simp [updateFirstScene, hs] at h
    · simp only [updateFirstScene, hs, if_false] at h ⊢
      simp [ih h]

theorem updateBatchList_none (B x : String) (u : SceneUpdate) (bs : List Batch)
    (h : (updateBatchList B x u bs).2 = none) : (updateBatchList B x u bs).1 = bs := by
  induction bs with
  | nil => rfl
  | cons b rest ih =>
    by_cases hb : b.id = B
    · simp only [updateBatchList, hb, if_true] at h ⊢
      simp at h ⊢
      rw [updateFirstScene_none x u b.scenes h]
      simp [← hb]
    · simp only [updateBatchList, hb, if_false] at h ⊢
      simp at h ⊢
      exact ih h

theorem updateSceneStatus_none (B x : String) (u : SceneUpdate) (st : State)
    (h : (updateBatchList B x u st.batches).2 = none) :
    updateSceneStatus B x u st = (st, []) := by
  simp [updateSceneStatus, h, updateBatchList_none B x u st.batches h]

/-- Claim C10: `cancelBatch` succeeds exactly when the batch resolves and has
a scene in `waiting` or `adding`; success only adds the batch id to the
cancellation set, and the two failure modes throw their respective messages
leaving the state unchanged. -/
theorem C10_cancel_precondition (batchId : String) (st : State) :
    ((cancelBatch batchId st).2 = none ↔
      ∃ b, batchOf st batchId = some b ∧
        b.scenes.any (fun s =>
          s.status = Status.waiting || s.status = Status.adding) = true) ∧
    ((cancelBatch batchId st).2 = none →
      (cancelBatch batchId st).1 =
        { st with cancelledBatchIds := insertId batchId st.cancelledBatchIds }) ∧
    (batchOf st batchId = none →
      cancelBatch batchId st = (st, some "Batch not found")) ∧
    (∀ b, batchOf st batchId = some b →
      b.scenes.any (fun s =>
        s.status = Status.waiting || s.status = Status.adding) = false →
      cancelBatch batchId st = (st, some "No pending scenes to cancel")) := by
  have hnone : batchOf st batchId = none →
      cancelBatch batchId st = (st, some "Batch not found") := by
    intro h
    unfold batchOf at h
    simp only [cancelBatch, h]
  have htrue : ∀ b, batchOf st batchId = some b →
      b.scenes.any (fun s =>
        s.status = Status.waiting || s.status = Status.adding) = true →
      cancelBatch batchId st =
        ({ st with cancelledBatchIds := insertId batchId st.cancelledBatchIds }, none) := by
    intro b hb ha
    unfold batchOf at hb
    simp only [cancelBatch, hb, ha, if_true]
  have hfalse : ∀ b, batchOf st batchId = some b →
      b.scenes.any (fun s =>
        s.status = Status.waiting || s.status = Status.adding) = false →
      cancelBatch batchId st = (st, some "No pending scenes to cancel") := by
    intro b hb ha
    unfold batchOf at hb
    simp only [cancelBatch, hb, ha]
    simp
  cases hb : batchOf st batchId with
  | none =>
    have he := hnone hb
    refine ⟨⟨fun h => ?_, ?_⟩, fun h => ?_, fun _ => he, fun b hb2 _ => ?_⟩
    · rw [he] at h
      simp at h
    · rintro ⟨b, hb2, _⟩
      simp at hb2
    · rw [he] at h
      simp at h
    · simp at hb2
  | some b =>
    cases ha : b.scenes.any (fun s =>
        s.status = Status.waiting || s.status = Status.adding) with
    | false =>
      have he := hfalse b hb ha
      refine ⟨⟨fun h => ?_, ?_⟩, fun h => ?_, fun h2 => ?_, fun b2 hb2 ha2 => ?_⟩
      · rw [he] at h
        simp at h
      · rintro ⟨b2, hb2, h2⟩
        rw [Option.some_inj] at hb2
        subst hb2
        exact absurd (ha ▸ h2) (by simp)
      · rw [he] at h
        simp at h
      · simp at h2
      · rw [Option.some_inj] at hb2
        subst hb2
        exact he
    | true =>
      have he := htrue b hb ha
      refine ⟨⟨fun _ => ⟨b, rfl, ha⟩, fun _ => by rw [he]⟩,
        fun _ => by rw [he], fun h2 => ?_, fun b2 hb2 ha2 => ?_⟩
      · simp at h2
      · rw [Option.some_inj] at hb2
        subst hb2
        exact absurd (ha2 ▸ ha) (by simp)

/-- Claim C10 witness: a waiting batch can be cancelled; after which the
cancellation set holds its id. -/
theorem C10_cancel_precondition_witness :
    (cancelBatch "b1" wStateWaiting).2 = none ∧
    (cancelBatch "b1" wStateWaiting).1 =
      { wStateWaiting with cancelledBatchIds := insertId "b1" [] } := by
  have h := C10_cancel_precondition "b1" wStateWaiting
  have hsucc : (cancelBatch "b1" wStateWaiting).2 = none := by
    refine (h.1).mpr ⟨⟨"b1", 0, [⟨"s1", none, Status.waiting, none, none⟩]⟩, ?_, ?_⟩
    · decide
    · decide
  exact ⟨hsucc, h.2.1 hsucc⟩

/-- Claim C5 (code-behaviour exhibit): a `searched` scene whose remote delete
fails ends with status `added` — not its prior status `searched` — because
the revert ternary reads the aliased record already set to `removing`.  The
failure reason is attached and the rejection propagates. -/
theorem C5_undo_failure_restores_added_not_searched :
    (undoScene wApiDelFail "b1" "s1" wStateSearched).1.batches =
      [⟨"b1", 0, [⟨"s1", none, Status.added, some "boom", none⟩]⟩] ∧
    (undoScene wApiDelFail "b1" "s1" wStateSearched).2.2 = some "boom" ∧
    ¬ currentStatus "b1" "s1" (undoScene wApiDelFail "b1" "s1" wStateSearched).1 =
        some Status.searched := by
  refine ⟨by decide, by decide, by decide⟩

/-- Claim C9 counterexample: two batches created in the same millisecond
receive the same time-derived id, so ids in the store are not pairwise
distinct. -/
theorem C9_counterexample :
    ((createBatch 5 ["b"] (createBatch 5 ["a"] wStateEmpty).2.1).2.1.batches.map
        Batch.id) = ["batch-5", "batch-5"] ∧
    ¬ ((createBatch 5 ["b"] (createBatch 5 ["a"] wStateEmpty).2.1).2.1.batches.map
        Batch.id).Nodup := by
  refine ⟨by decide, by decide⟩

/-- Claim C9 amended: batch ids are time-derived (`batch-${Date.now()}`);
pairwise distinctness of stored ids is preserved by `updateSceneStatus` and
`clearBatches` unconditionally, and by `createBatch` exactly when the id
derived from the creation time is not already present — two batches created
within the same millisecond receive identical ids. -/
theorem C9_amended (now : Nat) (ids : List String) (st : State)
    (hnd : (st.batches.map Batch.id).Nodup)
    (hfresh : ∀ b ∈ st.batches, ¬ b.id = "batch-" ++ toString now) :
    (createBatch now ids st).1.id = "batch-" ++ toString now ∧
    (createBatch now ids st).1.timestamp = now ∧
    (((createBatch now ids st).2.1).batches.map Batch.id).Nodup ∧
    (∀ B x u, ((updateSceneStatus B x u st).1.batches.map Batch.id) =
      st.batches.map Batch.id) ∧
    ((clearBatchesCmd st).1.batches.map Batch.id).Nodup := by
  refine ⟨rfl, rfl, ?_, ?_, by simp [clearBatchesCmd]⟩
  · simp only [createBatch, List.map_append, List.map_cons, List.map_nil]
    rw [List.nodup_append]
    refine ⟨hnd, by simp, ?_⟩
    intro a ha hb
    simp at hb
    obtain ⟨b, hbmem, hbid⟩ := List.mem_map.mp ha
    exact hfresh b hbmem (by rw [hbid, hb])
  · intro B x u
    exact updateSceneStatus_map_id B x u st

/-- Claim C9 amended witness: creating a batch at a fresh timestamp in a
state that already has one batch preserves distinctness. -/
theorem C9_amended_witness :
    (createBatch 6 ["b"] (createBatch 5 ["a"] wStateEmpty).2.1).1.id = "batch-6" ∧
    (((createBatch 6 ["b"] (createBatch 5 ["a"] wStateEmpty).2.1).2.1).batches.map
      Batch.id).Nodup := by
  have h := C9_amended 6 ["b"] (createBatch 5 ["a"] wStateEmpty).2.1
    (by decide) (by decide)
  exact ⟨h.1, h.2.2.1⟩

theorem updateFirstFilter_not_found (fid : String) (u : FilterUpdate)
    (l : List Filter) (h : ∀ f ∈ l, ¬ f.id = fid) :
    updateFirstFilter fid u l = (l, false) := by
  induction l with
  | nil => rfl
  | cons f rest ih =>
    have hf : ¬ f.id = fid := h f (by simp)
    simp [updateFirstFilter, hf, ih (fun g hg => h g (by simp [hg]))]

theorem toggleFirstFilter_not_found (fid : String)
    (l : List Filter) (h : ∀ f ∈ l, ¬ f.id = fid) :
    toggleFirstFilter fid l = (l, false) := by
  induction l with
  | nil => rfl
  | cons f rest ih =>
    have hf : ¬ f.id = fid := h f (by simp)
    simp [toggleFirstFilter, hf, ih (fun g hg => h g (by simp [hg]))]

/-- Claim C8 counterexample: the `deleteFilter` handler invoked with an id
absent from the store responds success (not a structured failure) and still
performs a persistence write and broadcast. -/
theorem C8_counterexample :
    (∀ f ∈ wState.filters, ¬ f.id = "absent") ∧
    (deleteFilterCmd "absent" wState).2.2 = none ∧
    (deleteFilterCmd "absent" wState).2.1 = [Event.persistFilters] := by
  refine ⟨by decide, by decide, by decide⟩

/-- Claim C8 amended: commands naming an absent batch, scene, or filter id
(`retryScene`, `undoScene`, `cancelBatch`, `updateFilter`, `toggleFilter`)
return a structured failure with no state change, no persistence write and
no broadcast; `deleteFilter` instead treats an absent id as an idempotent
success — the filter list is unchanged but it persists and broadcasts. -/
theorem C8_amended (st : State) :
    (∀ api B x, batchOf st B = none →
      retryScene api B x st = (st, [], some "Batch not found")) ∧
    (∀ api B x b, batchOf st B = some b →
      b.scenes.find? (fun s => s.stashId = x) = none →
      retryScene api B x st = (st, [], some "Scene not found")) ∧
    (∀ apiDel B x, batchOf st B = none →
      undoScene apiDel B x st = (st, [], some "Batch not found")) ∧
    (∀ apiDel B x b, batchOf st B = some b →
      b.scenes.find? (fun s => s.stashId = x) = none →
      undoScene apiDel B x st = (st, [], some "Scene not found")) ∧
    (∀ B, batchOf st B = none → cancelBatch B st = (st, some "Batch not found")) ∧
    (∀ fid u, (∀ f ∈ st.filters, ¬ f.id = fid) →
      updateFilterCmd fid u st = (st, [], some "Filter not found")) ∧
    (∀ fid, (∀ f ∈ st.filters, ¬ f.id = fid) →
      toggleFilterCmd fid st = (st, [], some "Filter not found")) ∧
    (∀ fid, (∀ f ∈ st.filters, ¬ f.id = fid) →
      deleteFilterCmd fid st = (st, [Event.persistFilters], none)) := by
  refine ⟨?_, ?_, ?_, ?_, ?_, ?_, ?_, ?_⟩
  · intro api B x h
    unfold retryScene
    unfold batchOf at h
    simp [h]
  · intro api B x b hb hs
    unfold retryScene
    unfold batchOf at hb
    simp [hb, hs]
  · intro apiDel B x h
    unfold undoScene
    unfold batchOf at h
    simp [h]
  · intro apiDel B x b hb hs
    unfold undoScene
    unfold batchOf at hb
    simp [hb, hs]
  · intro B h
    exact (C10_cancel_precondition B st).2.2.1 h
  · intro fid u h
    simp [updateFilterCmd, updateFirstFilter_not_found fid u st.filters h]
  · intro fid h
    simp [toggleFilterCmd, toggleFirstFilter_not_found fid st.filters h]
  · intro fid h
    have : st.filters.filter (fun f => !(f.id = fid)) = st.filters := by
      rw [List.filter_eq_self]
      intro f hf
      simp [h f hf]
    simp [deleteFilterCmd, this]

/-- Claim C8 amended witness: the five commands reject concrete absent ids
with no state change. -/
theorem C8_amended_witness :
    retryScene wApiAdded "nope" "x" wState = (wState, [], some "Batch not found") ∧
    undoScene wApiDelFail "nope" "x" wState = (wState, [], some "Batch not found") ∧
    cancelBatch "nope" wState = (wState, some "Batch not found") ∧
    updateFilterCmd "nope" {} wState = (wState, [], some "Filter not found") ∧
    toggleFilterCmd "nope" wState = (wState, [], some "Filter not found") := by
  have h := C8_amended wState
  exact ⟨h.1 wApiAdded "nope" "x" (by decide),
    h.2.2.1 wApiDelFail "nope" "x" (by decide),
    h.2.2.2.2.1 "nope" (by decide),
    h.2.2.2.2.2.1 "nope" {} (by decide),
    h.2.2.2.2.2.2.1 "nope" (by decide)⟩

theorem migrateVals_proj (mkId : Nat → String) (t m : String)
    (i : Nat) (vs : List String) :
    (migrateVals mkId t m i vs).map (fun f => (f.type, f.mode, f.value, f.enabled)) =
      vs.map (fun v => (t, m, escapeRegex v, true)) := by
  induction vs generalizing i with
  | nil => simp [migrateVals]
  | cons v rest ih => simp [migrateVals, ih (i + 1)]

theorem migrateCat_proj (mkId : Nat → String) (base : Nat) (t : String)
    (cfg : Option OldCategory) :
    (migrateCat mkId base t cfg).map (fun f => (f.type, f.mode, f.value, f.enabled)) =
      (catValues cfg).map
        (fun v => (t, modeOrDefault (catMode cfg), escapeRegex v, true)) := by
  cases cfg with
  | none => simp [migrateCat, catValues, catMode]
  | some c =>
    cases hv : c.values with
    | nil => simp [migrateCat, catValues, catMode, hv]
    | cons v vs =>
      have h := migrateVals_proj mkId t (modeOrDefault c.mode) base c.values
      simp only [migrateCat, catValues, catMode, hv]
      simp only [hv] at h
      simpa using h

/-- Claim C7 counterexample: a legacy category stored in allowlist mode is
migrated to an allowlist rule, not a blocklist one — migration preserves the
legacy category's mode. -/
theorem C7_counterexample :
    migrateOldFilters wMkId ⟨some ⟨some "allowlist", ["Acme"]⟩, none, none, none⟩ =
      [{ id := "id0", type := "studio", mode := "allowlist", value := "Acme",
         enabled := true }] ∧
    ¬ (∀ f ∈ migrateOldFilters wMkId
          ⟨some ⟨some "allowlist", ["Acme"]⟩, none, none, none⟩,
        f.mode = "blocklist") := by
  refine ⟨by decide, by decide⟩

theorem mem_insertId (x y : String) (l : List String) :
    y ∈ insertId x l ↔ y ∈ l ∨ y = x := by
  unfold insertId
  by_cases h : x ∈ l
  · simp only [h, if_true]
    constructor
    · exact Or.inl
    · rintro (hy | hy)
      · exact hy
      · exact hy ▸ h
  · simp [h]

theorem mem_addAll (l xs : List String) (y : String) :
    y ∈ addAll l xs ↔ y ∈ l ∨ y ∈ xs := by
  induction xs generalizing l with
  | nil => simp [addAll]
  | cons x rest ih =>
    rw [show addAll l (x :: rest) = addAll (insertId x l) rest from rfl,
      ih (insertId x l), mem_insertId]
    simp [List.mem_cons, or_assoc]

theorem find?_waitingRecord (ids : List String) (x : String) (hx : x ∈ ids) :
    (ids.map waitingRecord).find? (fun s => s.stashId = x) = some (waitingRecord x) := by
  induction ids with
  | nil => simp at hx
  | cons i rest ih =>
    by_cases h : i = x
    · subst h
      simp [List.find?_cons, waitingRecord]
    · rcases List.mem_cons.mp hx with h2 | h2
      · exact absurd h2.symm h
      · simp [List.find?_cons, waitingRecord, h, ih h2]

theorem find?_id_append (bs0 : List Batch) (b : Batch) (B : String)
    (hfresh : ∀ c ∈ bs0, ¬ c.id = B) (hbid : b.id = B) :
    (bs0 ++ [b]).find? (fun c => c.id = B) = some b := by
  induction bs0 with
  | nil => simp [List.find?_cons, hbid]
  | cons c rest ih =>
    have hc : ¬ c.id = B := hfresh c (by simp)
    simp [List.find?_cons, hc, ih (fun d hd => hfresh d (by simp [hd]))]

theorem updateSceneStatus_step (B x : String) (u : SceneUpdate) (st : State)
    (bs0 : List Batch) (b : Batch) (hS : st.batches = bs0 ++ [b])
    (hfresh : ∀ c ∈ bs0, ¬ c.id = B) (hbid : b.id = B) :
    (updateSceneStatus B x u st).1.batches =
      bs0 ++ [{ b with scenes := (updateFirstScene x u b.scenes).1 }] := by
  rw [updateSceneStatus_batches, hS,
    updateBatchList_append_fresh B x u bs0 b hfresh hbid]

theorem updateSceneStatus_step_events (B x : String) (u : SceneUpdate) (st : State)
    (bs0 : List Batch) (b : Batch) (hS : st.batches = bs0 ++ [b])
    (hfresh : ∀ c ∈ bs0, ¬ c.id = B) (hbid : b.id = B) :
    (updateSceneStatus B x u st).2 =
      match (updateFirstScene x u b.scenes).2 with
      | none => []
      | some p => [Event.statusUpdate B x p.1 p.2, Event.persistBatches] := by
  unfold updateSceneStatus
  rw [hS, updateBatchList_append_fresh B x u bs0 b hfresh hbid]
  cases hr : (updateFirstScene x u b.scenes).2 with
  | none => rfl
  | some p =>
    cases p
    rfl

theorem applyUpdates_cancelledIds (B : String) (pairs : List (String × SceneUpdate))
    (st : State) :
    (applyUpdates B pairs st).1.cancelledBatchIds = st.cancelledBatchIds := by
  induction pairs generalizing st with
  | nil => rfl
  | cons p rest ih =>
    cases p with
    | mk x u =>
      rw [show applyUpdates B ((x, u) :: rest) st =
        ((applyUpdates B rest (updateSceneStatus B x u st).1).1,
         (updateSceneStatus B x u st).2 ++
           (applyUpdates B rest (updateSceneStatus B x u st).1).2) from rfl]
      rw [ih (updateSceneStatus B x u st).1, updateSceneStatus_cancelledIds]

theorem applyUpdates_filters (B : String) (pairs : List (String × SceneUpdate))
    (st : State) :
    (applyUpdates B pairs st).1.filters = st.filters := by
  induction pairs generalizing st with
  | nil => rfl
  | cons p rest ih =>
    cases p with
    | mk x u =>
      rw [show applyUpdates B ((x, u) :: rest) st =
        ((applyUpdates B rest (updateSceneStatus B x u st).1).1,
         (updateSceneStatus B x u st).2 ++
           (applyUpdates B rest (updateSceneStatus B x u st).1).2) from rfl]
      rw [ih (updateSceneStatus B x u st).1, updateSceneStatus_filters]

theorem updateFirstScene_snd_some (x : String) (u : SceneUpdate)
    (l : List SceneRecord) (pr : Status × Status)
    (h : (updateFirstScene x u l).2 = some pr) :
    ∃ r, l.find? (fun s => s.stashId = x) = some r ∧
      pr = (r.status, (applyUpdate r u).status) := by
  cases hf : l.find? (fun s => s.stashId = x) with
  | none =>
    rw [updateFirstScene_not_found x u l hf] at h
    simp at h
  | some r =>
    have h2 := (updateFirstScene_found x u l r hf).1
    rw [h2] at h
    exact ⟨r, rfl, (Option.some_inj.mp h).symm⟩

theorem applyUpdates_char (B : String) (pairs : List (String × SceneUpdate))
    (st : State) (bs0 : List Batch) (b : Batch)
    (hS : st.batches = bs0 ++ [b]) (hfresh : ∀ c ∈ bs0, ¬ c.id = B)
    (hbid : b.id = B) (hnd : (pairs.map Prod.fst).Nodup) :
    ∃ scenes',
      (applyUpdates B pairs st).1.batches = bs0 ++ [{ b with scenes := scenes' }] ∧
      scenes'.map SceneRecord.stashId = b.scenes.map SceneRecord.stashId ∧
      (∀ y, ¬ y ∈ pairs.map Prod.fst →
        scenes'.find? (fun s => s.stashId = y) =
          b.scenes.find? (fun s => s.stashId = y)) ∧
      (∀ p ∈ pairs, ∀ r, b.scenes.find? (fun s => s.stashId = p.1) = some r →
        scenes'.find? (fun s => s.stashId = p.1) = some (applyUpdate r p.2)) ∧
      (∀ e ∈ (applyUpdates B pairs st).2,
        e = Event.persistBatches ∨
        ∃ p, p ∈ pairs ∧ ∃ r,
          b.scenes.find? (fun s => s.stashId = p.1) = some r ∧
          e = Event.statusUpdate B p.1 r.status (applyUpdate r p.2).status) := by
  induction pairs generalizing st b with
  | nil =>
    refine ⟨b.scenes, ?_, rfl, fun y _ => rfl, by simp, by simp [applyUpdates]⟩
    show st.batches = bs0 ++ [{ b with scenes := b.scenes }]
    rw [hS]
  | cons p rest ih =>
    cases p with
    | mk x u =>
      have hstep := updateSceneStatus_step B x u st bs0 b hS hfresh hbid
      have hstepev := updateSceneStatus_step_events B x u st bs0 b hS hfresh hbid
      have hnd1 : (rest.map Prod.fst).Nodup := (List.nodup_cons.mp hnd).2
      have hxnot : ¬ x ∈ rest.map Prod.fst := (List.nodup_cons.mp hnd).1
      obtain ⟨scenes', hbs, hids, hframe, hupd, hev⟩ :=
        ih (updateSceneStatus B x u st).1
          { b with scenes := (updateFirstScene x u b.scenes).1 } hstep hbid hnd1
      refine ⟨scenes', ?_, ?_, ?_, ?_, ?_⟩
      · rw [show (applyUpdates B ((x, u) :: rest) st).1 =
          (applyUpdates B rest (updateSceneStatus B x u st).1).1 from rfl]
        exact hbs
      · rw [hids]
        exact updateFirstScene_map_stashId x u b.scenes
      · intro y hy
        have hy1 : ¬ y ∈ rest.map Prod.fst := fun h => hy (by simp [h])
        have hyx : ¬ y = x := fun h => hy (by simp [h])
        rw [hframe y hy1]
        exact updateFirstScene_other x u b.scenes y hyx
      · intro q hq r hr
        rcases List.mem_cons.mp hq with h | h
        · subst h
          have h1 := (updateFirstScene_found x u b.scenes r hr).2
          rw [hframe x hxnot]
          exact h1
        · have hqx : ¬ q.1 = x := by
            intro he
            exact hxnot (he ▸ List.mem_map.mpr ⟨q, h, rfl⟩)
          refine hupd q h r ?_
          rw [show ({ b with scenes := (updateFirstScene x u b.scenes).1 } : Batch).scenes
            = (updateFirstScene x u b.scenes).1 from rfl]
          rw [updateFirstScene_other x u b.scenes q.1 hqx]
          exact hr
      · intro e he
        rw [show (applyUpdates B ((x, u) :: rest) st).2 =
          (updateSceneStatus B x u st).2 ++
            (applyUpdates B rest (updateSceneStatus B x u st).1).2 from rfl] at he
        rcases List.mem_append.mp he with h | h
        · rw [hstepev] at h
          cases hsnd : (updateFirstScene x u b.scenes).2 with
          | none =>
            rw [hsnd] at h
            simp at h
          | some pr =>
            rw [hsnd] at h
            obtain ⟨r, hfr, hpr⟩ := updateFirstScene_snd_some x u b.scenes pr hsnd
            rcases List.mem_cons.mp h with h2 | h2
            · right
              exact ⟨(x, u), by simp, r, hfr, by rw [h2, hpr]⟩
            · left
              simpa using h2
        · rcases hev e h with h2 | h2
          · exact Or.inl h2
          · obtain ⟨q, hq, r, hfr, heq⟩ := h2
            have hqx : ¬ q.1 = x := by
              intro he2
              exact hxnot (he2 ▸ List.mem_map.mpr ⟨q, hq, rfl⟩)
            rw [show ({ b with scenes := (updateFirstScene x u b.scenes).1 } : Batch).scenes
              = (updateFirstScene x u b.scenes).1 from rfl] at hfr
            rw [updateFirstScene_other x u b.scenes q.1 hqx] at hfr
            exact Or.inr ⟨q, by simp [hq], r, hfr, heq⟩

theorem processLoop_cons_cancel (api : String → ApiResult) (B : String) (total : Nat)
    (scene : SceneInput) (rest : List SceneInput) (ext : List (List String))
    (i : Nat) (cnt : Counts) (st : State)
    (hc : B ∈ addAll st.cancelledBatchIds (ext.headD [])) :
    processLoop api B total (scene :: rest) ext i cnt st =
      cancelRemaining B (scene :: rest) cnt
        { st with cancelledBatchIds := addAll st.cancelledBatchIds (ext.headD []) } := by
  simp only [processLoop]
  rw [if_pos hc]

theorem processLoop_cons_step (api : String → ApiResult) (B : String) (total : Nat)
    (scene : SceneInput) (rest : List SceneInput) (ext : List (List String))
    (i : Nat) (cnt : Counts) (st : State)
    (hc : ¬ B ∈ addAll st.cancelledBatchIds (ext.headD [])) :
    processLoop api B total (scene :: rest) ext i cnt st =
      ((processLoop api B total rest ext.tail (i + 1)
          (processIter api B total scene i cnt
            { st with cancelledBatchIds :=
                addAll st.cancelledBatchIds (ext.headD []) }).2.2
          (processIter api B total scene i cnt
            { st with cancelledBatchIds :=
                addAll st.cancelledBatchIds (ext.headD []) }).1).1,
       (processIter api B total scene i cnt
          { st with cancelledBatchIds :=
              addAll st.cancelledBatchIds (ext.headD []) }).2.1 ++
         (processLoop api B total rest ext.tail (i + 1)
            (processIter api B total scene i cnt
              { st with cancelledBatchIds :=
                  addAll st.cancelledBatchIds (ext.headD []) }).2.2
            (processIter api B total scene i cnt
              { st with cancelledBatchIds :=
                  addAll st.cancelledBatchIds (ext.headD []) }).1).2.1,
       (processLoop api B total rest ext.tail (i + 1)
          (processIter api B total scene i cnt
            { st with cancelledBatchIds :=
                addAll st.cancelledBatchIds (ext.headD []) }).2.2
          (processIter api B total scene i cnt
            { st with cancelledBatchIds :=
                addAll st.cancelledBatchIds (ext.headD []) }).1).2.2) := by
  simp only [processLoop]
  rw [if_neg hc]

theorem applyOutcomeBulk_spec (res : ApiResult) (scrapedTitle : Option String)
    (B x : String) (cnt : Counts) (st : State) :
    ∃ u : SceneUpdate, u.status = some (outcomeStatus res) ∧
      (applyOutcomeBulk res scrapedTitle B x cnt st).1 = (updateSceneStatus B x u st).1 ∧
      (applyOutcomeBulk res scrapedTitle B x cnt st).2.1 = (updateSceneStatus B x u st).2 := by
  cases res with
  | ok t mid sFlag eFlag =>
    cases sFlag with
    | true =>
      exact ⟨{ status := some Status.searched, title := some (orTitle t scrapedTitle),
               error := some none, whisparrId := some mid }, rfl, rfl, rfl⟩
    | false =>
      cases eFlag with
      | true =>
        exact ⟨{ status := some Status.exist, title := some (orTitle t scrapedTitle),
                 error := some none }, rfl, rfl, rfl⟩
      | false =>
        exact ⟨{ status := some Status.added, title := some (orTitle t scrapedTitle),
                 error := some none, whisparrId := some mid }, rfl, rfl, rfl⟩
  | err msg sceneTitle =>
    cases h : errIndicatesExists msg with
    | true =>
      refine ⟨{ status := some Status.exist,
                title := some (orTitle sceneTitle scrapedTitle), error := some none },
        by simp [outcomeStatus, h], ?_, ?_⟩ <;>
        simp only [applyOutcomeBulk, h, if_true]
    | false =>
      refine ⟨{ status := some Status.error,
                title := some (orTitle sceneTitle scrapedTitle), error := some (some msg) },
        by simp [outcomeStatus, h], ?_, ?_⟩ <;>
        simp only [applyOutcomeBulk, h, if_false, Bool.false_eq_true]

theorem edge_adding_outcome (res : ApiResult) :
    allowedEdge Status.adding (outcomeStatus res) = true := by
  cases res with
  | ok t mid sFlag eFlag =>
    cases sFlag <;> cases eFlag <;> simp [outcomeStatus, allowedEdge]
  | err msg sceneTitle =>
    cases h : errIndicatesExists msg <;> simp [outcomeStatus, allowedEdge, h]

theorem mem_apiAddsOf (evs : List Event) (y : String) :
    y ∈ apiAddsOf evs ↔ Event.apiAdd y ∈ evs := by
  induction evs with
  | nil => simp [apiAddsOf]
  | cons e rest ih =>
    cases e with
    | statusUpdate a c o n =>
      rw [show apiAddsOf (Event.statusUpdate a c o n :: rest) = apiAddsOf rest from rfl, ih]
      simp
    | persistBatches =>
      rw [show apiAddsOf (Event.persistBatches :: rest) = apiAddsOf rest from rfl, ih]
      simp
    | persistFilters =>
      rw [show apiAddsOf (Event.persistFilters :: rest) = apiAddsOf rest from rfl, ih]
      simp
    | apiAdd x =>
      rw [show apiAddsOf (Event.apiAdd x :: rest) = x :: apiAddsOf rest from rfl]
      simp only [List.mem_cons]
      rw [ih]
      simp
    | apiDelete x =>
      rw [show apiAddsOf (Event.apiDelete x :: rest) = apiAddsOf rest from rfl, ih]
      simp
    | notify t m =>
      rw [show apiAddsOf (Event.notify t m :: rest) = apiAddsOf rest from rfl, ih]
      simp

theorem apiAddsOf_append (a c : List Event) :
    apiAddsOf (a ++ c) = apiAddsOf a ++ apiAddsOf c := by
  simp [apiAddsOf, List.filterMap_append]

theorem processIter_char (api : String → ApiResult) (B : String) (total : Nat)
    (scene : SceneInput) (i : Nat) (cnt : Counts) (st : State)
    (bs0 : List Batch) (b : Batch)
    (hS : st.batches = bs0 ++ [b]) (hfresh : ∀ c ∈ bs0, ¬ c.id = B)
    (hbid : b.id = B) (r0 : SceneRecord)
    (hr0 : b.scenes.find? (fun c => c.stashId = scene.stashId) = some r0)
    (hw : r0.status = Status.waiting) :
    ∃ scenes1,
      (processIter api B total scene i cnt st).1.batches =
        bs0 ++ [{ b with scenes := scenes1 }] ∧
      scenes1.map SceneRecord.stashId = b.scenes.map SceneRecord.stashId ∧
      (∀ y, ¬ y = scene.stashId →
        scenes1.find? (fun s => s.stashId = y) =
          b.scenes.find? (fun s => s.stashId = y)) ∧
      (∃ r1, scenes1.find? (fun s => s.stashId = scene.stashId) = some r1 ∧
        r1.status = outcomeStatus (api scene.stashId)) ∧
      (∀ e ∈ (processIter api B total scene i cnt st).2.1, edgeOKEvent e = true) ∧
      apiAddsOf (processIter api B total scene i cnt st).2.1 = [scene.stashId] ∧
      (processIter api B total scene i cnt st).1.filters = st.filters ∧
      (processIter api B total scene i cnt st).1.cancelledBatchIds =
        st.cancelledBatchIds := by
  obtain ⟨u2, hu2s, hst2, hev2⟩ :=
    applyOutcomeBulk_spec (api scene.stashId) (sceneTitleOpt scene) B scene.stashId cnt
      (updateSceneStatus B scene.stashId
        { status := some Status.adding, title := some (sceneTitleOpt scene) } st).1
  have hproj1 : (processIter api B total scene i cnt st).1 =
      (applyOutcomeBulk (api scene.stashId) (sceneTitleOpt scene) B scene.stashId cnt
        (updateSceneStatus B scene.stashId
          { status := some Status.adding, title := some (sceneTitleOpt scene) } st).1).1 := rfl
  have hproj2 : (processIter api B total scene i cnt st).2.1 =
      (updateSceneStatus B scene.stashId
        { status := some Status.adding, title := some (sceneTitleOpt scene) } st).2 ++
      [Event.notify "Adding Scenes"
        ("Adding scene " ++ toString (i + 1) ++ " of " ++ toString total ++ "..."),
       Event.apiAdd scene.stashId] ++
      (applyOutcomeBulk (api scene.stashId) (sceneTitleOpt scene) B scene.stashId cnt
        (updateSceneStatus B scene.stashId
          { status := some Status.adding, title := some (sceneTitleOpt scene) } st).1).2.1 := rfl
  have hbOf : batchOf st B = some b := by
    unfold batchOf
    rw [hS]
    exact find?_id_append bs0 b B hfresh hbid
  have hstep1 := updateSceneStatus_step B scene.stashId
    { status := some Status.adding, title := some (sceneTitleOpt scene) } st bs0 b
    hS hfresh hbid
  have hfound1 := updateFirstScene_found scene.stashId
    { status := some Status.adding, title := some (sceneTitleOpt scene) } b.scenes r0 hr0
  have hbOf1 : batchOf (updateSceneStatus B scene.stashId
      { status := some Status.adding, title := some (sceneTitleOpt scene) } st).1 B =
      some { b with scenes := (updateFirstScene scene.stashId
        { status := some Status.adding, title := some (sceneTitleOpt scene) } b.scenes).1 } := by
    unfold batchOf
    rw [hstep1]
    exact find?_id_append bs0 _ B hfresh hbid
  have hstep2 := updateSceneStatus_step B scene.stashId u2
    (updateSceneStatus B scene.stashId
      { status := some Status.adding, title := some (sceneTitleOpt scene) } st).1 bs0
    { b with scenes := (updateFirstScene scene.stashId
        { status := some Status.adding, title := some (sceneTitleOpt scene) } b.scenes).1 }
    hstep1 hfresh hbid
  have hfound2 := updateFirstScene_found scene.stashId u2
    (updateFirstScene scene.stashId
      { status := some Status.adding, title := some (sceneTitleOpt scene) } b.scenes).1
    (applyUpdate r0 { status := some Status.adding, title := some (sceneTitleOpt scene) })
    hfound1.2
  have hev1eq := updateSceneStatus_events_found B scene.stashId
    { status := some Status.adding, title := some (sceneTitleOpt scene) } st b r0 hbOf hr0
  have hev2eq := updateSceneStatus_events_found B scene.stashId u2
    (updateSceneStatus B scene.stashId
      { status := some Status.adding, title := some (sceneTitleOpt scene) } st).1
    { b with scenes := (updateFirstScene scene.stashId
        { status := some Status.adding, title := some (sceneTitleOpt scene) } b.scenes).1 }
    (applyUpdate r0 { status := some Status.adding, title := some (sceneTitleOpt scene) })
    hbOf1 hfound1.2
  have hevALL : (processIter api B total scene i cnt st).2.1 =
      [Event.statusUpdate B scene.stashId r0.status Status.adding,
       Event.persistBatches,
       Event.notify "Adding Scenes"
         ("Adding scene " ++ toString (i + 1) ++ " of " ++ toString total ++ "..."),
       Event.apiAdd scene.stashId,
       Event.statusUpdate B scene.stashId Status.adding
         (applyUpdate (applyUpdate r0
           { status := some Status.adding, title := some (sceneTitleOpt scene) }) u2).status,
       Event.persistBatches] := by
    rw [hproj2, hev1eq, hev2, hev2eq]
    rfl
  refine ⟨(updateFirstScene scene.stashId u2
    (updateFirstScene scene.stashId
      { status := some Status.adding, title := some (sceneTitleOpt scene) } b.scenes).1).1,
    ?_, ?_, ?_, ?_, ?_, ?_, ?_, ?_⟩
  · rw [hproj1, hst2]
    exact hstep2
  · rw [updateFirstScene_map_stashId, updateFirstScene_map_stashId]
  · intro y hy
    rw [updateFirstScene_other scene.stashId u2 _ y hy,
      updateFirstScene_other scene.stashId _ _ y hy]
  · refine ⟨applyUpdate (applyUpdate r0
      { status := some Status.adding, title := some (sceneTitleOpt scene) }) u2,
      hfound2.2, ?_⟩
    rw [applyUpdate_status, hu2s]
    rfl
  · intro e he
    rw [hevALL] at he
    simp only [List.mem_cons, List.not_mem_nil, or_false] at he
    rcases he with h | h | h | h | h | h
    · rw [h]
      show allowedEdge r0.status Status.adding = true
      rw [hw]
      rfl
    · rw [h]
      rfl
    · rw [h]
      rfl
    · rw [h]
      rfl
    · rw [h]
      show allowedEdge Status.adding (applyUpdate (applyUpdate r0
        { status := some Status.adding, title := some (sceneTitleOpt scene) }) u2).status = true
      rw [applyUpdate_status, hu2s, Option.getD_some]
      exact edge_adding_outcome (api scene.stashId)
    · rw [h]
      rfl
  · rw [hevALL]
    rfl
  · rw [hproj1, hst2, updateSceneStatus_filters, updateSceneStatus_filters]
  · rw [hproj1, hst2, updateSceneStatus_cancelledIds, updateSceneStatus_cancelledIds]

theorem cancelRemaining_char (B : String) (scenes : List SceneInput)
    (cnt : Counts) (st : State) (bs0 : List Batch) (b : Batch)
    (hS : st.batches = bs0 ++ [b]) (hfresh : ∀ c ∈ bs0, ¬ c.id = B)
    (hbid : b.id = B)
    (hnd : (scenes.map SceneInput.stashId).Nodup)
    (hwait : ∀ s ∈ scenes, ∃ r,
      b.scenes.find? (fun c => c.stashId = s.stashId) = some r ∧
      r.status = Status.waiting) :
    ∃ scenes1,
      (cancelRemaining B scenes cnt st).1.batches =
        bs0 ++ [{ b with scenes := scenes1 }] ∧
      scenes1.map SceneRecord.stashId = b.scenes.map SceneRecord.stashId ∧
      (∀ y, ¬ y ∈ scenes.map SceneInput.stashId →
        scenes1.find? (fun s => s.stashId = y) =
          b.scenes.find? (fun s => s.stashId = y)) ∧
      (∀ s ∈ scenes, ∃ r1,
        scenes1.find? (fun c => c.stashId = s.stashId) = some r1 ∧
        r1.status = Status.cancelled ∧ r1.error = some "Cancelled by user") ∧
      (∀ e ∈ (cancelRemaining B scenes cnt st).2.1, edgeOKEvent e = true) ∧
      apiAddsOf (cancelRemaining B scenes cnt st).2.1 = [] ∧
      (cancelRemaining B scenes cnt st).1.filters = st.filters ∧
      ¬ B ∈ (cancelRemaining B scenes cnt st).1.cancelledBatchIds := by
  have hkeys : ((scenes.map (fun s => (s.stashId, cancelledUpdate s))).map Prod.fst) =
      scenes.map SceneInput.stashId := by
    simp
  obtain ⟨scenes1, hbs, hids, hframe, hupd, hev⟩ :=
    applyUpdates_char B (scenes.map (fun s => (s.stashId, cancelledUpdate s))) st bs0 b
      hS hfresh hbid (by rw [hkeys]; exact hnd)
  have hproj1 : (cancelRemaining B scenes cnt st).1.batches =
      (applyUpdates B (scenes.map (fun s => (s.stashId, cancelledUpdate s))) st).1.batches := rfl
  have hproj2 : (cancelRemaining B scenes cnt st).2.1 =
      (applyUpdates B (scenes.map (fun s => (s.stashId, cancelledUpdate s))) st).2 := rfl
  have hprojC : (cancelRemaining B scenes cnt st).1.cancelledBatchIds =
      ((applyUpdates B (scenes.map (fun s => (s.stashId, cancelledUpdate s)))
        st).1.cancelledBatchIds).filter (fun x => !(x = B)) := rfl
  have hprojF : (cancelRemaining B scenes cnt st).1.filters =
      (applyUpdates B (scenes.map (fun s => (s.stashId, cancelledUpdate s))) st).1.filters := rfl
  refine ⟨scenes1, ?_, hids, ?_, ?_, ?_, ?_, ?_, ?_⟩
  · rw [hproj1]
    exact hbs
  · intro y hy
    refine hframe y ?_
    rw [hkeys]
    exact hy
  · intro s hs
    obtain ⟨r, hr, hrw⟩ := hwait s hs
    have hu := hupd (s.stashId, cancelledUpdate s) (List.mem_map.mpr ⟨s, hs, rfl⟩) r hr
    exact ⟨applyUpdate r (cancelledUpdate s), hu, rfl, rfl⟩
  · intro e he
    rw [hproj2] at he
    rcases hev e he with h | ⟨p, hp, r, hfr, heq⟩
    · rw [h]
      rfl
    · obtain ⟨s, hs, hps⟩ := List.mem_map.mp hp
      obtain ⟨r', hr', hrw'⟩ := hwait s hs
      rw [← hps] at hfr heq
      have hrr : r = r' := Option.some_inj.mp (hfr.symm.trans hr')
      rw [heq]
      show allowedEdge r.status (applyUpdate r (cancelledUpdate s)).status = true
      rw [hrr, hrw']
      rfl
  · rw [hproj2]
    refine List.eq_nil_iff_forall_not_mem.mpr ?_
    intro y hy
    have hmem := (mem_apiAddsOf _ y).mp hy
    rcases hev _ hmem with h | ⟨p, hp, r, hfr, heq⟩
    · simp at h
    · simp at heq
  · rw [hprojF, applyUpdates_filters]
  · rw [hprojC]
    intro hmem
    have hf := List.mem_filter.mp hmem
    simp at hf

theorem processLoop_general (api : String → ApiResult) (B : String) (total : Nat)
    (toProcess : List SceneInput) (ext : List (List String)) (i : Nat) (cnt : Counts)
    (st : State) (bs0 : List Batch) (b : Batch)
    (hS : st.batches = bs0 ++ [b]) (hfresh : ∀ c ∈ bs0, ¬ c.id = B) (hbid : b.id = B)
    (hnd : (toProcess.map SceneInput.stashId).Nodup)
    (hwait : ∀ s ∈ toProcess, ∃ r,
      b.scenes.find? (fun c => c.stashId = s.stashId) = some r ∧
      r.status = Status.waiting) :
    ∃ scenes1,
      (processLoop api B total toProcess ext i cnt st).1.batches =
        bs0 ++ [{ b with scenes := scenes1 }] ∧
      scenes1.map SceneRecord.stashId = b.scenes.map SceneRecord.stashId ∧
      (∀ y, ¬ y ∈ toProcess.map SceneInput.stashId →
        scenes1.find? (fun s => s.stashId = y) =
          b.scenes.find? (fun s => s.stashId = y)) ∧
      (∀ e ∈ (processLoop api B total toProcess ext i cnt st).2.1,
        edgeOKEvent e = true) ∧
      (∀ y, y ∈ apiAddsOf (processLoop api B total toProcess ext i cnt st).2.1 →
        y ∈ toProcess.map SceneInput.stashId) ∧
      (processLoop api B total toProcess ext i cnt st).1.filters = st.filters := by
  induction toProcess generalizing ext i cnt st b with
  | nil =>
    refine ⟨b.scenes, ?_, rfl, fun y _ => rfl, ?_, ?_, rfl⟩
    · show st.batches = bs0 ++ [{ b with scenes := b.scenes }]
      rw [hS]
    · intro e he
      simp [processLoop] at he
    · intro y hy
      simp [processLoop, apiAddsOf] at hy
  | cons scene rest ih =>
    by_cases hc : B ∈ addAll st.cancelledBatchIds (ext.headD [])
    · rw [processLoop_cons_cancel api B total scene rest ext i cnt st hc]
      have hS1 : ({ st with cancelledBatchIds := addAll st.cancelledBatchIds (ext.headD []) } : State).batches = bs0 ++ [b] := hS
      obtain ⟨scenes1, hbs, hids, hframe, hupd, hev, hapi, hfil, hcan⟩ :=
        cancelRemaining_char B (scene :: rest) cnt
          { st with cancelledBatchIds := addAll st.cancelledBatchIds (ext.headD []) }
          bs0 b hS1 hfresh hbid hnd hwait
      refine ⟨scenes1, hbs, hids, hframe, hev, ?_, hfil⟩
      intro y hy
      rw [hapi] at hy
      simp at hy
    · rw [processLoop_cons_step api B total scene rest ext i cnt st hc]
      have hS1 : ({ st with cancelledBatchIds := addAll st.cancelledBatchIds (ext.headD []) } : State).batches = bs0 ++ [b] := hS
      obtain ⟨r0, hr0, hw0⟩ := hwait scene (by simp)
      obtain ⟨scenes1, hbsI, hidsI, hotherI, hselfI, hevI, hapiI, hfilI, hcanI⟩ :=
        processIter_char api B total scene i cnt
          { st with cancelledBatchIds := addAll st.cancelledBatchIds (ext.headD []) }
          bs0 b hS1 hfresh hbid r0 hr0 hw0
      have hndR : (rest.map SceneInput.stashId).Nodup := (List.nodup_cons.mp hnd).2
      have hsceneNot : ¬ scene.stashId ∈ rest.map SceneInput.stashId :=
        (List.nodup_cons.mp hnd).1
      have hwaitR : ∀ s ∈ rest, ∃ r,
          ({ b with scenes := scenes1 } : Batch).scenes.find?
            (fun c => c.stashId = s.stashId) = some r ∧
          r.status = Status.waiting := by
        intro s hs
        obtain ⟨r, hr, hrw⟩ := hwait s (by simp [hs])
        have hne : ¬ s.stashId = scene.stashId := by
          intro he
          exact hsceneNot (he ▸ List.mem_map.mpr ⟨s, hs, rfl⟩)
        refine ⟨r, ?_, hrw⟩
        rw [show ({ b with scenes := scenes1 } : Batch).scenes = scenes1 from rfl,
          hotherI s.stashId hne]
        exact hr
      obtain ⟨scenes2, hbsR, hidsR, hotherR, hevR, hapiR, hfilR⟩ :=
        ih ext.tail (i + 1)
          (processIter api B total scene i cnt
            { st with cancelledBatchIds := addAll st.cancelledBatchIds (ext.headD []) }).2.2
          (processIter api B total scene i cnt
            { st with cancelledBatchIds := addAll st.cancelledBatchIds (ext.headD []) }).1
          { b with scenes := scenes1 } hbsI hbid hndR hwaitR
      refine ⟨scenes2, hbsR, ?_, ?_, ?_, ?_, ?_⟩
      · rw [show ({ b with scenes := scenes1 } : Batch).scenes = scenes1 from rfl] at hidsR
        exact hidsR.trans hidsI
      · intro y hy
        have hyr : ¬ y ∈ rest.map SceneInput.stashId := by
          intro h
          exact hy (by simp [h])
        have hyx : ¬ y = scene.stashId := by
          intro h
          exact hy (by simp [h])
        rw [hotherR y hyr,
          show ({ b with scenes := scenes1 } : Batch).scenes = scenes1 from rfl,
          hotherI y hyx]
      · intro e he
        rcases List.mem_append.mp he with h | h
        · exact hevI e h
        · exact hevR e h
      · intro y hy
        rw [apiAddsOf_append] at hy
        rcases List.mem_append.mp hy with h | h
        · rw [hapiI] at h
          simp at h
          simp [h]
        · have := hapiR y h
          simp [this]
      · rw [hfilR]
        exact hfilI

theorem shouldAddScene_blocked_reason (compile : String → Option (String → Bool))
    (filters : List Filter) (md : SceneMetadata)
    (h : (shouldAddScene compile filters md).shouldAdd = false) :
    ¬ (shouldAddScene compile filters md).reason = none := by
  induction filters with
  | nil => simp [shouldAddScene] at h
  | cons f rest ih =>
    cases hp : (evaluateFilter compile f md).pass
    · have heq : shouldAddScene compile (f :: rest) md =
          ⟨false, (evaluateFilter compile f md).reason, some f.id⟩ := by
        simp [shouldAddScene, hp]
      rw [heq]
      obtain ⟨s, hs, _, _⟩ := evaluateFilter_fail_reason compile f md hp
      simp [hs]
    · have heq : shouldAddScene compile (f :: rest) md = shouldAddScene compile rest md := by
        simp [shouldAddScene, hp]
      rw [heq] at h ⊢
      exact ih h

theorem allowedScenes_sub (compile : String → Option (String → Bool))
    (filters : List Filter) (scenes : List SceneInput) (s : SceneInput)
    (hs : s ∈ allowedScenes compile filters scenes) :
    s ∈ scenes ∧ (shouldAddScene compile filters s.md).shouldAdd = true :=
  ⟨List.mem_of_mem_filter hs, by simpa using List.of_mem_filter hs⟩

theorem allowedScenes_nodup (compile : String → Option (String → Bool))
    (filters : List Filter) (scenes : List SceneInput)
    (hnd : (scenes.map SceneInput.stashId).Nodup) :
    ((allowedScenes compile filters scenes).map SceneInput.stashId).Nodup :=
  hnd.sublist ((List.filter_sublist scenes).map SceneInput.stashId)

theorem blockedScenes_keys (compile : String → Option (String → Bool))
    (filters : List Filter) (scenes : List SceneInput) :
    (((blockedScenes compile filters scenes).map
      (fun p => (p.1.stashId, filteredUpdate p.1 p.2))).map Prod.fst) =
      (scenes.filter (fun s =>
        !(shouldAddScene compile filters s.md).shouldAdd)).map SceneInput.stashId := by
  simp [blockedScenes]

theorem blockedScenes_keys_nodup (compile : String → Option (String → Bool))
    (filters : List Filter) (scenes : List SceneInput)
    (hnd : (scenes.map SceneInput.stashId).Nodup) :
    ((scenes.filter (fun s =>
      !(shouldAddScene compile filters s.md).shouldAdd)).map SceneInput.stashId).Nodup :=
  hnd.sublist ((List.filter_sublist scenes).map SceneInput.stashId)

theorem blocked_not_in_allowed (compile : String → Option (String → Bool))
    (filters : List Filter) (scenes : List SceneInput)
    (hnd : (scenes.map SceneInput.stashId).Nodup) (s : SceneInput)
    (hs : s ∈ scenes) (hb : (shouldAddScene compile filters s.md).shouldAdd = false) :
    ¬ s.stashId ∈ (allowedScenes compile filters scenes).map SceneInput.stashId := by
  intro hmem
  obtain ⟨t, htmem, htid⟩ := List.mem_map.mp hmem
  obtain ⟨htscenes, htallowed⟩ := allowedScenes_sub compile filters scenes t htmem
  have hts : t = s := List.inj_on_of_nodup_map hnd htscenes hs htid
  rw [hts, hb] at htallowed
  exact absurd htallowed (by simp)

theorem allowed_not_in_blocked (compile : String → Option (String → Bool))
    (filters : List Filter) (scenes : List SceneInput)
    (hnd : (scenes.map SceneInput.stashId).Nodup) (s : SceneInput)
    (hs : s ∈ scenes) (ha : (shouldAddScene compile filters s.md).shouldAdd = true) :
    ¬ s.stashId ∈ (scenes.filter (fun t =>
      !(shouldAddScene compile filters t.md).shouldAdd)).map SceneInput.stashId := by
  intro hmem
  obtain ⟨t, htmem, htid⟩ := List.mem_map.mp hmem
  have htscenes : t ∈ scenes := List.mem_of_mem_filter htmem
  have htblocked : (!(shouldAddScene compile filters t.md).shouldAdd) = true :=
    (List.mem_filter.mp htmem).2
  have hts : t = s := List.inj_on_of_nodup_map hnd htscenes hs htid
  rw [hts, ha] at htblocked
  exact absurd htblocked (by simp)

theorem updateSceneStatus_apiAddsOf (B x : String) (u : SceneUpdate) (st : State) :
    apiAddsOf (updateSceneStatus B x u st).2 = [] := by
  cases h : (updateBatchList B x u st.batches).2 with
  | none => simp [updateSceneStatus, h, apiAddsOf]
  | some p =>
    cases p
    simp [updateSceneStatus, h, apiAddsOf, List.filterMap_cons]

theorem applyUpdates_apiAddsOf (B : String) (pairs : List (String × SceneUpdate))
    (st : State) : apiAddsOf (applyUpdates B pairs st).2 = [] := by
  induction pairs generalizing st with
  | nil => rfl
  | cons p rest ih =>
    cases p with
    | mk x u =>
      rw [show (applyUpdates B ((x, u) :: rest) st).2 =
        (updateSceneStatus B x u st).2 ++
          (applyUpdates B rest (updateSceneStatus B x u st).1).2 from rfl,
        apiAddsOf_append, updateSceneStatus_apiAddsOf, ih]
      rfl

theorem updateSceneStatus_no_apiDelete (B x : String) (u : SceneUpdate)
    (st : State) (y : String) :
    ¬ Event.apiDelete y ∈ (updateSceneStatus B x u st).2 := by
  cases h : (updateBatchList B x u st.batches).2 with
  | none => simp [updateSceneStatus, h]
  | some p =>
    cases p
    simp [updateSceneStatus, h]

theorem applyUpdates_no_apiDelete (B : String) (pairs : List (String × SceneUpdate))
    (st : State) (y : String) :
    ¬ Event.apiDelete y ∈ (applyUpdates B pairs st).2 := by
  induction pairs generalizing st with
  | nil => simp [applyUpdates]
  | cons p rest ih =>
    cases p with
    | mk x u =>
      rw [show (applyUpdates B ((x, u) :: rest) st).2 =
        (updateSceneStatus B x u st).2 ++
          (applyUpdates B rest (updateSceneStatus B x u st).1).2 from rfl]
      intro hmem
      rcases List.mem_append.mp hmem with h | h
      · exact updateSceneStatus_no_apiDelete B x u st y h
      · exact ih _ h

theorem map_waitingRecord_stashId (ids : List String) :
    (ids.map waitingRecord).map SceneRecord.stashId = ids := by
  induction ids with
  | nil => rfl
  | cons i rest ih => simp [waitingRecord, ih]

theorem addMultiple_all_branch (compile : String → Option (String → Bool))
    (api : String → ApiResult) (now : Nat) (ext : List (List String))
    (scenes : List SceneInput) (st : State)
    (h : (allowedScenes compile st.filters scenes).length = 0) :
    addMultipleScenesWithMetadata compile api now ext scenes st =
      ((bulkMark compile now scenes st).1,
       (bulkCreate now scenes st).2.2 ++ (bulkMark compile now scenes st).2 ++
         [Event.notify "Complete"
           (toString (blockedScenes compile st.filters scenes).length ++
             " scenes filtered")]) := by
  simp only [addMultipleScenesWithMetadata]
  rw [if_pos h]

theorem addMultiple_some_branch (compile : String → Option (String → Bool))
    (api : String → ApiResult) (now : Nat) (ext : List (List String))
    (scenes : List SceneInput) (st : State)
    (h : ¬ (allowedScenes compile st.filters scenes).length = 0) :
    addMultipleScenesWithMetadata compile api now ext scenes st =
      ((processLoop api (bulkCreate now scenes st).1.id
          (allowedScenes compile st.filters scenes).length
          (allowedScenes compile st.filters scenes) ext 0
          { filtered := (blockedScenes compile st.filters scenes).length }
          (bulkMark compile now scenes st).1).1,
       (bulkCreate now scenes st).2.2 ++ (bulkMark compile now scenes st).2 ++
         [Event.notify "Adding Scenes"
           ("Adding scene 1 of " ++
             toString (allowedScenes compile st.filters scenes).length ++ "...")] ++
         (processLoop api (bulkCreate now scenes st).1.id
           (allowedScenes compile st.filters scenes).length
           (allowedScenes compile st.filters scenes) ext 0
           { filtered := (blockedScenes compile st.filters scenes).length }
           (bulkMark compile now scenes st).1).2.1 ++
         [Event.notify
           (if 0 < (processLoop api (bulkCreate now scenes st).1.id
               (allowedScenes compile st.filters scenes).length
               (allowedScenes compile st.filters scenes) ext 0
               { filtered := (blockedScenes compile st.filters scenes).length }
               (bulkMark compile now scenes st).1).2.2.cancelled
            then "Cancelled" else "Complete")
           (buildSummary (processLoop api (bulkCreate now scenes st).1.id
               (allowedScenes compile st.filters scenes).length
               (allowedScenes compile st.filters scenes) ext 0
               { filtered := (blockedScenes compile st.filters scenes).length }
               (bulkMark compile now scenes st).1).2.2)]) := by
  simp only [addMultipleScenesWithMetadata]
  rw [if_neg h]

theorem bulkMark_char (compile : String → Option (String → Bool)) (now : Nat)
    (scenes : List SceneInput) (st : State)
    (hnd : (scenes.map SceneInput.stashId).Nodup)
    (hfresh : ∀ c ∈ st.batches, ¬ c.id = "batch-" ++ toString now) :
    ∃ scenes1,
      (bulkMark compile now scenes st).1.batches =
        st.batches ++ [{ (bulkCreate now scenes st).1 with scenes := scenes1 }] ∧
      scenes1.map SceneRecord.stashId = scenes.map (fun s => s.stashId) ∧
      (∀ y, ¬ y ∈ (scenes.filter (fun t =>
          !(shouldAddScene compile st.filters t.md).shouldAdd)).map SceneInput.stashId →
        scenes1.find? (fun c => c.stashId = y) =
          ((scenes.map (fun s => s.stashId)).map waitingRecord).find?
            (fun c => c.stashId = y)) ∧
      (∀ s ∈ scenes, (shouldAddScene compile st.filters s.md).shouldAdd = false →
        scenes1.find? (fun c => c.stashId = s.stashId) =
          some (applyUpdate (waitingRecord s.stashId)
            (filteredUpdate s (shouldAddScene compile st.filters s.md).reason))) ∧
      apiAddsOf (bulkMark compile now scenes st).2 = [] ∧
      (∀ y, ¬ Event.apiDelete y ∈ (bulkMark compile now scenes st).2) ∧
      (bulkMark compile now scenes st).1.filters = st.filters ∧
      (bulkMark compile now scenes st).1.cancelledBatchIds = st.cancelledBatchIds ∧
      (∀ e ∈ (bulkMark compile now scenes st).2, edgeOKEvent e = true) := by
  have hSc : ((bulkCreate now scenes st).2.1).batches =
      st.batches ++ [(bulkCreate now scenes st).1] := rfl
  have hbid : (bulkCreate now scenes st).1.id = "batch-" ++ toString now := rfl
  have hndk : ((((blockedScenes compile st.filters scenes).map
      (fun p => (p.1.stashId, filteredUpdate p.1 p.2))).map Prod.fst)).Nodup := by
    rw [blockedScenes_keys]
    exact blockedScenes_keys_nodup compile st.filters scenes hnd
  obtain ⟨scenes1, hbs, hids, hframe, hupd, hev⟩ :=
    applyUpdates_char (bulkCreate now scenes st).1.id
      ((blockedScenes compile st.filters scenes).map
        (fun p => (p.1.stashId, filteredUpdate p.1 p.2)))
      (bulkCreate now scenes st).2.1 st.batches (bulkCreate now scenes st).1
      hSc hfresh hbid hndk
  have hpairmem : ∀ s ∈ scenes,
      (shouldAddScene compile st.filters s.md).shouldAdd = false →
      (s.stashId, filteredUpdate s (shouldAddScene compile st.filters s.md).reason) ∈
        (blockedScenes compile st.filters scenes).map
          (fun p => (p.1.stashId, filteredUpdate p.1 p.2)) := by
    intro s hs hb
    refine List.mem_map.mpr ⟨(s, (shouldAddScene compile st.filters s.md).reason), ?_, rfl⟩
    refine List.mem_map.mpr ⟨s, ?_, rfl⟩
    exact List.mem_filter.mpr ⟨hs, by simp [hb]⟩
  have hrec : ∀ s ∈ scenes,
      ((bulkCreate now scenes st).1).scenes.find?
        (fun c => c.stashId = s.stashId) = some (waitingRecord s.stashId) := by
    intro s hs
    exact find?_waitingRecord (scenes.map (fun t => t.stashId)) s.stashId
      (List.mem_map.mpr ⟨s, hs, rfl⟩)
  refine ⟨scenes1, hbs, ?_, ?_, ?_, ?_, ?_, ?_, ?_, ?_⟩
  · rw [hids]
    exact map_waitingRecord_stashId (scenes.map (fun s => s.stashId))
  · intro y hy
    refine hframe y ?_
    rw [blockedScenes_keys]
    exact hy
  · intro s hs hb
    exact hupd (s.stashId, filteredUpdate s (shouldAddScene compile st.filters s.md).reason)
      (hpairmem s hs hb) (waitingRecord s.stashId) (hrec s hs)
  · exact applyUpdates_apiAddsOf _ _ _
  · intro y
    exact applyUpdates_no_apiDelete _ _ _ y
  · exact applyUpdates_filters _ _ _
  · exact applyUpdates_cancelledIds _ _ _
  · intro e he
    rcases hev e he with h | ⟨p, hp, r, hfr, heq⟩
    · rw [h]
      rfl
    · obtain ⟨q, hq, hqp⟩ := List.mem_map.mp hp
      obtain ⟨s, hsmem, hsq⟩ := List.mem_map.mp hq
      have hsscenes : s ∈ scenes := List.mem_of_mem_filter hsmem
      rw [← hqp, ← hsq] at hfr heq
      have hw : r = waitingRecord s.stashId :=
        Option.some_inj.mp (hfr.symm.trans (hrec s hsscenes))
      rw [heq, hw]
      rfl

/-- Claim C3 amended: for every candidate list whose stash ids are pairwise
distinct and whose time-derived batch id does not collide with an existing
batch, `addMultipleScenesWithMetadata` partitions the candidates by the
evaluator preserving order, creates one batch covering all candidates (each
record initially `waiting`), immediately marks every evaluator-blocked
candidate `filtered` with the evaluator's non-null reason, never makes a
remote add call for a blocked candidate, and when every candidate is blocked
finalizes immediately with a summary notification and no network call at
all. -/
theorem C3_bulk_add (compile : String → Option (String → Bool))
    (api : String → ApiResult) (now : Nat) (ext : List (List String))
    (scenes : List SceneInput) (st : State)
    (hnd : (scenes.map SceneInput.stashId).Nodup)
    (hfresh : ∀ c ∈ st.batches, ¬ c.id = "batch-" ++ toString now) :
    (createBatch now (scenes.map (fun s => s.stashId)) st).1.scenes =
      (scenes.map (fun s => s.stashId)).map waitingRecord ∧
    (∃ b2, (addMultipleScenesWithMetadata compile api now ext scenes st).1.batches =
        st.batches ++ [b2] ∧
      b2.id = "batch-" ++ toString now ∧
      b2.scenes.map SceneRecord.stashId = scenes.map (fun s => s.stashId) ∧
      (∀ s ∈ scenes, (shouldAddScene compile st.filters s.md).shouldAdd = false →
        ∃ r, b2.scenes.find? (fun c => c.stashId = s.stashId) = some r ∧
          r.status = Status.filtered ∧
          r.error = (shouldAddScene compile st.filters s.md).reason ∧
          ¬ (shouldAddScene compile st.filters s.md).reason = none)) ∧
    (∀ s ∈ scenes, (shouldAddScene compile st.filters s.md).shouldAdd = false →
      ¬ Event.apiAdd s.stashId ∈
        (addMultipleScenesWithMetadata compile api now ext scenes st).2) ∧
    ((∀ s ∈ scenes, (shouldAddScene compile st.filters s.md).shouldAdd = false) →
      (∀ y, ¬ Event.apiAdd y ∈
        (addMultipleScenesWithMetadata compile api now ext scenes st).2) ∧
      (∀ y, ¬ Event.apiDelete y ∈
        (addMultipleScenesWithMetadata compile api now ext scenes st).2) ∧
      (addMultipleScenesWithMetadata compile api now ext scenes st).2.getLast? =
        some (Event.notify "Complete"
          (toString scenes.length ++ " scenes filtered"))) := by
  obtain ⟨scenes1, hbs1, hids1, hframe1, hupd1, hapi1, hdel1, hfil1, hcan1, hedge1⟩ :=
    bulkMark_char compile now scenes st hnd hfresh
  by_cases hall : (allowedScenes compile st.filters scenes).length = 0
  · have hbr := addMultiple_all_branch compile api now ext scenes st hall
    refine ⟨rfl,
      ⟨{ (bulkCreate now scenes st).1 with scenes := scenes1 }, ?_, rfl, hids1, ?_⟩,
      ?_, ?_⟩
    · rw [hbr]
      exact hbs1
    · intro s hs hb
      exact ⟨_, hupd1 s hs hb, rfl, rfl, shouldAddScene_blocked_reason _ _ _ hb⟩
    · intro s hs hb hmem
      rw [hbr] at hmem
      have hmem2 := (mem_apiAddsOf _ _).mpr hmem
      rw [apiAddsOf_append, apiAddsOf_append, hapi1] at hmem2
      simp [apiAddsOf, bulkCreate, createBatch] at hmem2
    · intro hallb
      refine ⟨?_, ?_, ?_⟩
      · intro y hmem
        rw [hbr] at hmem
        have hmem2 := (mem_apiAddsOf _ _).mpr hmem
        rw [apiAddsOf_append, apiAddsOf_append, hapi1] at hmem2
        simp [apiAddsOf, bulkCreate, createBatch] at hmem2
      · intro y hmem
        rw [hbr] at hmem
        rcases List.mem_append.mp hmem with h | h
        · rcases List.mem_append.mp h with h2 | h2
          · simp [bulkCreate, createBatch] at h2
          · exact hdel1 y h2
        · simp at h
      · rw [hbr]
        have hlen : (blockedScenes compile st.filters scenes).length = scenes.length := by
          unfold blockedScenes
          rw [List.length_map, List.filter_eq_self.mpr]
          intro s hs
          simp [hallb s hs]
        rw [List.getLast?_concat, hlen]
  · have hbr := addMultiple_some_branch compile api now ext scenes st hall
    have hS2 : (bulkMark compile now scenes st).1.batches =
        st.batches ++ [{ (bulkCreate now scenes st).1 with scenes := scenes1 }] := hbs1
    have hndA := allowedScenes_nodup compile st.filters scenes hnd
    have hwaitA : ∀ s ∈ allowedScenes compile st.filters scenes, ∃ r,
        ({ (bulkCreate now scenes st).1 with scenes := scenes1 } : Batch).scenes.find?
          (fun c => c.stashId = s.stashId) = some r ∧
        r.status = Status.waiting := by
      intro s hs
      obtain ⟨hsS, hsA⟩ := allowedScenes_sub compile st.filters scenes s hs
      have hnotb := allowed_not_in_blocked compile st.filters scenes hnd s hsS hsA
      refine ⟨waitingRecord s.stashId, ?_, rfl⟩
      rw [show ({ (bulkCreate now scenes st).1 with scenes := scenes1 } : Batch).scenes =
        scenes1 from rfl]
      rw [hframe1 s.stashId hnotb]
      exact find?_waitingRecord _ _ (List.mem_map.mpr ⟨s, hsS, rfl⟩)
    obtain ⟨scenes2, hbs2, hids2, hframe2, hedge2, hapi2, hfil2⟩ :=
      processLoop_general api (bulkCreate now scenes st).1.id
        (allowedScenes compile st.filters scenes).length
        (allowedScenes compile st.filters scenes) ext 0
        { filtered := (blockedScenes compile st.filters scenes).length }
        (bulkMark compile now scenes st).1 st.batches
        { (bulkCreate now scenes st).1 with scenes := scenes1 }
        hS2 hfresh rfl hndA hwaitA
    refine ⟨rfl,
      ⟨{ (bulkCreate now scenes st).1 with scenes := scenes2 }, ?_, rfl, ?_, ?_⟩,
      ?_, ?_⟩
    · rw [hbr]
      exact hbs2
    · rw [show ({ (bulkCreate now scenes st).1 with scenes := scenes2 } : Batch).scenes =
        scenes2 from rfl]
      rw [show scenes2.map SceneRecord.stashId = scenes1.map SceneRecord.stashId from hids2]
      exact hids1
    · intro s hs hb
      have hnota := blocked_not_in_allowed compile st.filters scenes hnd s hs hb
      refine ⟨applyUpdate (waitingRecord s.stashId)
        (filteredUpdate s (shouldAddScene compile st.filters s.md).reason), ?_,
        rfl, rfl, shouldAddScene_blocked_reason _ _ _ hb⟩
      rw [show ({ (bulkCreate now scenes st).1 with scenes := scenes2 } : Batch).scenes =
        scenes2 from rfl]
      rw [hframe2 s.stashId hnota]
      exact hupd1 s hs hb
    · intro s hs hb hmem
      rw [hbr] at hmem
      have hmem2 := (mem_apiAddsOf _ _).mpr hmem
      have hA : apiAddsOf (bulkCreate now scenes st).2.2 = [] := rfl
      have hN : ∀ a b, apiAddsOf [Event.notify a b] = [] := fun a b => rfl
      rw [apiAddsOf_append, apiAddsOf_append, apiAddsOf_append, apiAddsOf_append,
        hapi1, hA, hN, hN] at hmem2
      simp only [List.append_nil, List.nil_append] at hmem2
      exact blocked_not_in_allowed compile st.filters scenes hnd s hs hb
        (hapi2 s.stashId hmem2)
    · intro hallb
      exfalso
      refine hall ?_
      have : allowedScenes compile st.filters scenes = [] := by
        unfold allowedScenes
        rw [List.filter_eq_nil_iff]
        intro s hs
        simp [hallb s hs]
      rw [this]
      rfl

/-- Claim C3 amended witness: three distinct candidates with the middle one
blocked. -/
theorem C3_bulk_add_witness :
    ∃ b2, (addMultipleScenesWithMetadata wCompile wApiAdded 7 [] wScenesMix wState).1.batches =
        wState.batches ++ [b2] ∧
      b2.id = "batch-" ++ toString 7 ∧
      b2.scenes.map SceneRecord.stashId = wScenesMix.map (fun s => s.stashId) ∧
      (∀ s ∈ wScenesMix, (shouldAddScene wCompile wState.filters s.md).shouldAdd = false →
        ∃ r, b2.scenes.find? (fun c => c.stashId = s.stashId) = some r ∧
          r.status = Status.filtered ∧
          r.error = (shouldAddScene wCompile wState.filters s.md).reason ∧
          ¬ (shouldAddScene wCompile wState.filters s.md).reason = none) := by
  have h := C3_bulk_add wCompile wApiAdded 7 [] wScenesMix wState (by decide) (by decide)
  exact h.2.1

/-- Claim C3 counterexample: two candidates sharing one stash id, the first
allowed and the second blocked — the blocked candidate's record is never
marked `filtered` (the first-match update hits the allowed candidate's
record), so the batch ends with statuses `added, waiting` and no `filtered`
record at all. -/
theorem C3_counterexample :
    (shouldAddScene wCompile wState.filters wMdBlock).shouldAdd = false ∧
    ((addMultipleScenesWithMetadata wCompile wApiAdded 7 [] wScenesDup wState).1.batches.map
      (fun b => b.scenes.map (fun r => r.status))) = [[Status.added, Status.waiting]] := by
  refine ⟨by decide, by decide⟩

/-- Claim C7 amended: for every legacy persisted shape, `migrateOldFilters`
visits the categories in the fixed order studios, performers, names, tags and
creates for each stored value (blank ones included) exactly one enabled rule
of the corresponding type whose mode is the legacy category's mode
(defaulting to blocklist when absent or empty) and whose pattern is the value
with regex metacharacters escaped; in particular
`{studios:{mode:'blocklist',values:['Acme']}}` yields exactly one rule
`{type:'studio', mode:'blocklist', pattern:'Acme', enabled:true}`. -/
theorem C7_migration (mkId : Nat → String) (old : OldFilters) :
    (migrateOldFilters mkId old).map (fun f => (f.type, f.mode, f.value, f.enabled)) =
      (catValues old.studios).map
        (fun v => ("studio", modeOrDefault (catMode old.studios), escapeRegex v, true)) ++
      (catValues old.performers).map
        (fun v => ("performer", modeOrDefault (catMode old.performers), escapeRegex v, true)) ++
      (catValues old.names).map
        (fun v => ("name", modeOrDefault (catMode old.names), escapeRegex v, true)) ++
      (catValues old.tags).map
        (fun v => ("tag", modeOrDefault (catMode old.tags), escapeRegex v, true)) := by
  simp only [migrateOldFilters, List.map_append, migrateCat_proj]


theorem updateSceneStatus_edges (B x : String) (u : SceneUpdate) (st : State)
    (h : ∀ b s, st.batches.find? (fun c => c.id = B) = some b →
      b.scenes.find? (fun r => r.stashId = x) = some s →
      allowedEdge s.status (applyUpdate s u).status = true) :
    ∀ e ∈ (updateSceneStatus B x u st).2, edgeOKEvent e = true := by
  cases hb : st.batches.find? (fun c => c.id = B) with
  | none =>
    rw [updateSceneStatus_no_batch B x u st hb]
    intro e he
    simp at he
  | some b =>
    cases hs : b.scenes.find? (fun r => r.stashId = x) with
    | none =>
      have h2 : (updateBatchList B x u st.batches).2 = none := by
        rw [(updateBatchList_found B x u st.batches b hb).1,
          updateFirstScene_not_found x u b.scenes hs]
      rw [updateSceneStatus_none B x u st h2]
      intro e he
      simp at he
    | some s =>
      rw [updateSceneStatus_events_found B x u st b s hb hs]
      intro e he
      rcases List.mem_cons.mp he with h1 | h1
      · subst h1
        simp only [edgeOKEvent]
        exact h b s hb hs
      · rcases List.mem_cons.mp h1 with h2 | h2
        · subst h2
          rfl
        · simp at h2

theorem chain2_edges (B x : String) (u1 u2 : SceneUpdate) (st : State)
    (b : Batch) (s : SceneRecord)
    (hb : st.batches.find? (fun c => c.id = B) = some b)
    (hs : b.scenes.find? (fun r => r.stashId = x) = some s)
    (h1 : allowedEdge s.status (applyUpdate s u1).status = true)
    (h2 : allowedEdge (applyUpdate s u1).status
      (applyUpdate (applyUpdate s u1) u2).status = true) :
    (∀ e ∈ (updateSceneStatus B x u1 st).2, edgeOKEvent e = true) ∧
    (∀ e ∈ (updateSceneStatus B x u2 (updateSceneStatus B x u1 st).1).2,
      edgeOKEvent e = true) := by
  constructor
  · refine updateSceneStatus_edges B x u1 st ?_
    intro b2 s2 hb2 hs2
    rw [hb] at hb2
    cases Option.some_inj.mp hb2
    rw [hs] at hs2
    cases Option.some_inj.mp hs2
    exact h1
  · refine updateSceneStatus_edges B x u2 (updateSceneStatus B x u1 st).1 ?_
    intro b2 s2 hb2 hs2
    have hbu : (updateSceneStatus B x u1 st).1.batches.find? (fun c => c.id = B) =
        some { b with scenes := (updateFirstScene x u1 b.scenes).1 } :=
      batchOf_update_self B x u1 st b hb
    rw [hbu] at hb2
    cases Option.some_inj.mp hb2
    have hsu : ({ b with scenes := (updateFirstScene x u1 b.scenes).1 } : Batch).scenes.find?
        (fun r => r.stashId = x) = some (applyUpdate s u1) :=
      (updateFirstScene_found x u1 b.scenes s hs).2
    rw [hsu] at hs2
    cases Option.some_inj.mp hs2
    exact h2

theorem find_frame_update (B x : String) (u : SceneUpdate) (st : State)
    (B2 x2 : String) (h : ¬ B2 = B ∨ ¬ x2 = x)
    (b2 : Batch) (s2 : SceneRecord)
    (hb2 : st.batches.find? (fun c => c.id = B2) = some b2)
    (hs2 : b2.scenes.find? (fun r => r.stashId = x2) = some s2) :
    ∃ b3, (updateSceneStatus B x u st).1.batches.find? (fun c => c.id = B2) = some b3 ∧
      b3.scenes.find? (fun r => r.stashId = x2) = some s2 := by
  by_cases hB2 : B2 = B
  · subst hB2
    rcases h with h | h
    · exact absurd rfl h
    · cases hbb : st.batches.find? (fun c => c.id = B2) with
      | none =>
        rw [hbb] at hb2
        simp at hb2
      | some bb =>
        rw [hbb] at hb2
        cases Option.some_inj.mp hb2
        refine ⟨{ b2 with scenes := (updateFirstScene x u b2.scenes).1 }, ?_, ?_⟩
        · rw [updateSceneStatus_batches]
          exact (updateBatchList_found B2 x u st.batches b2 hbb).2
        · have hproj : ({ b2 with scenes := (updateFirstScene x u b2.scenes).1 } :
              Batch).scenes = (updateFirstScene x u b2.scenes).1 := rfl
          rw [hproj, updateFirstScene_other x u b2.scenes x2 h]
          exact hs2
  · refine ⟨b2, ?_, hs2⟩
    rw [updateSceneStatus_batches, updateBatchList_other B x u st.batches B2 hB2]
    exact hb2

theorem cancelBatch_batches (B : String) (st : State) :
    (cancelBatch B st).1.batches = st.batches := by
  cases hf : st.batches.find? (fun b => b.id = B) with
  | none => simp [cancelBatch, hf]
  | some b =>
    by_cases h : b.scenes.any (fun s =>
        s.status = Status.waiting || s.status = Status.adding) = true
    · simp [cancelBatch, hf, h]
    · simp [cancelBatch, hf, h]

theorem find?_key_of_mem {α : Type} (f : α → String) (l : List α) (a : α)
    (hnd : (l.map f).Nodup) (ha : a ∈ l) :
    l.find? (fun c => f c = f a) = some a := by
  induction l with
  | nil => simp at ha
  | cons c rest ih =>
    rcases List.mem_cons.mp ha with h | h
    · subst h
      simp [List.find?_cons]
    · have hne : ¬ f c = f a := by
        intro hfe
        have hmem : f a ∈ rest.map f := List.mem_map.mpr ⟨a, h, rfl⟩
        rw [← hfe] at hmem
        exact (List.nodup_cons.mp hnd).1 hmem
      rw [List.find?_cons]
      simp only [hne, decide_False]
      exact ih (List.nodup_cons.mp hnd).2 h

theorem retryScene_char (api : String → ApiResult) (B x : String) (st : State)
    (b : Batch) (s : SceneRecord)
    (hb : st.batches.find? (fun c => c.id = B) = some b)
    (hs : b.scenes.find? (fun r => r.stashId = x) = some s) :
    ∃ u2 : SceneUpdate, u2.status = some (outcomeStatus (api x)) ∧
      retryScene api B x st =
        ((updateSceneStatus B x u2 (updateSceneStatus B x
            { status := some Status.adding, error := some none } st).1).1,
         (updateSceneStatus B x
            { status := some Status.adding, error := some none } st).2 ++
           [Event.apiAdd x] ++
           (updateSceneStatus B x u2 (updateSceneStatus B x
             { status := some Status.adding, error := some none } st).1).2,
         none) := by
  cases hA : api x with
  | ok t m sFlag eFlag =>
    cases sFlag with
    | true =>
      refine ⟨{ status := some Status.searched, title := some (orTitle t s.title),
                error := some none }, rfl, ?_⟩
      simp [retryScene, hb, hs, hA]
    | false =>
      cases eFlag with
      | true =>
        refine ⟨{ status := some Status.exist, title := some (orTitle t s.title),
                  error := some none }, rfl, ?_⟩
        simp [retryScene, hb, hs, hA]
      | false =>
        refine ⟨{ status := some Status.added, title := some (orTitle t s.title),
                  error := some none }, rfl, ?_⟩
        simp [retryScene, hb, hs, hA]
  | err msg sceneTitle =>
    cases hEx : errIndicatesExists msg with
    | true =>
      refine ⟨{ status := some Status.exist,
                title := some (orTitle sceneTitle s.title), error := some none },
        by simp [outcomeStatus, hEx], ?_⟩
      simp [retryScene, hb, hs, hA, hEx]
    | false =>
      refine ⟨{ status := some Status.error, error := some (some msg) },
        by simp [outcomeStatus, hEx], ?_⟩
      simp [retryScene, hb, hs, hA, hEx]

theorem retryScene_edges (api : String → ApiResult) (B x : String) (st : State)
    (herr : ∀ b s, st.batches.find? (fun c => c.id = B) = some b →
      b.scenes.find? (fun r => r.stashId = x) = some s → s.status = Status.error) :
    ∀ e ∈ (retryScene api B x st).2.1, edgeOKEvent e = true := by
  cases hb : st.batches.find? (fun c => c.id = B) with
  | none =>
    intro e he
    simp [retryScene, hb] at he
  | some b =>
    cases hs : b.scenes.find? (fun r => r.stashId = x) with
    | none =>
      intro e he
      simp [retryScene, hb, hs] at he
    | some s =>
      obtain ⟨u2, hu2, heq⟩ := retryScene_char api B x st b s hb hs
      have hch := chain2_edges B x
        { status := some Status.adding, error := some none } u2 st b s hb hs
        (by rw [herr b s hb hs]; rfl)
        (by
          rw [applyUpdate_status (applyUpdate s
            { status := some Status.adding, error := some none }) u2, hu2]
          exact edge_adding_outcome (api x))
      intro e he
      rw [heq] at he
      rcases List.mem_append.mp he with h1 | h1
      · rcases List.mem_append.mp h1 with h2 | h2
        · exact hch.1 e h2
        · rcases List.mem_singleton.mp h2 with h3
          subst h3
          rfl
      · exact hch.2 e h1

theorem retryAllGo_edges (api : String → ApiResult) (l : List (String × String))
    (st : State) (hnd : l.Nodup)
    (hres : ∀ p ∈ l, ∃ b s, st.batches.find? (fun c => c.id = p.1) = some b ∧
      b.scenes.find? (fun r => r.stashId = p.2) = some s ∧ s.status = Status.error) :
    ∀ e ∈ (retryAllGo api l st).2, edgeOKEvent e = true := by
  induction l generalizing st with
  | nil =>
    intro e he
    simp [retryAllGo] at he
  | cons p rest ih =>
    obtain ⟨pb, ps⟩ := p
    obtain ⟨b, s, hb, hs, hstat⟩ := hres (pb, ps) (by simp)
    obtain ⟨u2, hu2, heq⟩ := retryScene_char api pb ps st b s hb hs
    have hnone : (retryScene api pb ps st).2.2 = none := by rw [heq]
    have hstep : retryAllGo api ((pb, ps) :: rest) st =
        ((retryAllGo api rest (retryScene api pb ps st).1).1,
         (retryScene api pb ps st).2.1 ++
           (retryAllGo api rest (retryScene api pb ps st).1).2) := by
      simp only [retryAllGo]
      rw [hnone]
    intro e he
    rw [hstep] at he
    rcases List.mem_append.mp he with h1 | h1
    · refine retryScene_edges api pb ps st ?_ e h1
      intro b2 s2 hb2 hs2
      rw [hb] at hb2
      cases Option.some_inj.mp hb2
      rw [hs] at hs2
      cases Option.some_inj.mp hs2
      exact hstat
    · have hst1 : (retryScene api pb ps st).1 =
          (updateSceneStatus pb ps u2 (updateSceneStatus pb ps
            { status := some Status.adding, error := some none } st).1).1 := by
        rw [heq]
      refine ih (retryScene api pb ps st).1 (List.nodup_cons.mp hnd).2 ?_ e h1
      intro q hq
      obtain ⟨qb, qs⟩ := q
      obtain ⟨bq, sq, hbq, hsq, hstatq⟩ := hres (qb, qs) (by simp [hq])
      have hqne : ¬ (qb, qs) = (pb, ps) := by
        intro hcontra
        exact (List.nodup_cons.mp hnd).1 (hcontra ▸ hq)
      have hor : ¬ qb = pb ∨ ¬ qs = ps := by
        by_cases h1q : qb = pb
        · right
          intro h2q
          exact hqne (by rw [h1q, h2q])
        · left
          exact h1q
      obtain ⟨b3, hb3, hs3⟩ := find_frame_update pb ps
        { status := some Status.adding, error := some none } st qb qs hor bq sq hbq hsq
      obtain ⟨b4, hb4, hs4⟩ := find_frame_update pb ps u2
        (updateSceneStatus pb ps
          { status := some Status.adding, error := some none } st).1 qb qs hor b3 sq hb3 hs3
      refine ⟨b4, sq, ?_, hs4, hstatq⟩
      rw [hst1]
      exact hb4

theorem retryAllFailed_edges (api : String → ApiResult) (st : State)
    (hwfB : (st.batches.map Batch.id).Nodup)
    (hwfS : ∀ b ∈ st.batches, (b.scenes.map SceneRecord.stashId).Nodup) :
    ∀ e ∈ (retryAllFailed api st).2, edgeOKEvent e = true := by
  refine retryAllGo_edges api
    ((st.batches.map (fun b =>
      (b.scenes.filter (fun s => s.status = Status.error)).map
        (fun s => (b.id, s.stashId)))).flatten) st ?_ ?_
  · rw [List.nodup_flatten]
    constructor
    · intro l hl
      obtain ⟨b, hbmem, hbl⟩ := List.mem_map.mp hl
      subst hbl
      have hsub : ((b.scenes.filter (fun s => s.status = Status.error)).map
          SceneRecord.stashId).Nodup :=
        List.Nodup.sublist (List.Sublist.map SceneRecord.stashId
          (List.filter_sublist b.scenes)) (hwfS b hbmem)
      have hmm : (b.scenes.filter (fun s => s.status = Status.error)).map
          (fun s => (b.id, s.stashId)) =
          ((b.scenes.filter (fun s => s.status = Status.error)).map
            SceneRecord.stashId).map (fun y => (b.id, y)) := by
        rw [List.map_map]
        rfl
      rw [hmm]
      refine List.Nodup.map ?_ hsub
      intro y1 y2 hy
      exact congrArg Prod.snd hy
    · rw [List.pairwise_map]
      refine List.Pairwise.imp ?_ (List.pairwise_map.mp hwfB)
      intro a c hne pq hpa hpc
      obtain ⟨s1, hs1, hval1⟩ := List.mem_map.mp hpa
      obtain ⟨s2, hs2, hval2⟩ := List.mem_map.mp hpc
      exact hne (congrArg Prod.fst (hval1.trans hval2.symm))
  · intro p hp
    obtain ⟨l, hl, hpl⟩ := List.mem_flatten.mp hp
    obtain ⟨b, hbmem, hbl⟩ := List.mem_map.mp hl
    subst hbl
    obtain ⟨s, hsmem, hsp⟩ := List.mem_map.mp hpl
    have hserr : s.status = Status.error := by
      have := List.of_mem_filter hsmem
      exact of_decide_eq_true this
    have hsmem2 : s ∈ b.scenes := List.mem_of_mem_filter hsmem
    refine ⟨b, s, ?_, ?_, hserr⟩
    · rw [← hsp]
      exact find?_key_of_mem Batch.id st.batches b hwfB hbmem
    · rw [← hsp]
      exact find?_key_of_mem SceneRecord.stashId b.scenes s (hwfS b hbmem) hsmem2

theorem undoScene_edges (apiDel : String → Option Nat → Option String)
    (B x : String) (st : State) :
    ∀ e ∈ (undoScene apiDel B x st).2.1, edgeOKEvent e = true := by
  cases hb : st.batches.find? (fun c => c.id = B) with
  | none =>
    intro e he
    simp [undoScene, hb] at he
  | some b =>
    cases hs : b.scenes.find? (fun r => r.stashId = x) with
    | none =>
      intro e he
      simp [undoScene, hb, hs] at he
    | some s =>
      cases hg : (s.status = Status.added || s.status = Status.searched : Bool) with
      | false =>
        intro e he
        simp [undoScene, hb, hs, hg] at he
      | true =>
        have hgor : s.status = Status.added ∨ s.status = Status.searched := by
          simpa using hg
        have h1e : allowedEdge s.status (applyUpdate s
            { status := some Status.removing, error := some none }).status = true := by
          rcases hgor with h | h <;> rw [h] <;> rfl
        have hcur : currentStatus B x (updateSceneStatus B x
            { status := some Status.removing, error := some none } st).1 =
            some Status.removing := by
          have hbf : (updateSceneStatus B x
              { status := some Status.removing, error := some none } st).1.batches.find?
              (fun c => c.id = B) =
              some { b with scenes := (updateFirstScene x
                { status := some Status.removing, error := some none } b.scenes).1 } :=
            batchOf_update_self B x
              { status := some Status.removing, error := some none } st b hb
          have hsf := (updateFirstScene_found x
            { status := some Status.removing, error := some none } b.scenes s hs).2
          simp [currentStatus, hbf, hsf]
          rfl
        cases hD : apiDel x s.whisparrId with
        | none =>
          have hch := chain2_edges B x
            { status := some Status.removing, error := some none }
            { status := some Status.removed, error := some none,
              whisparrId := some none } st b s hb hs h1e rfl
          have heq : (undoScene apiDel B x st).2.1 =
              (updateSceneStatus B x
                { status := some Status.removing, error := some none } st).2 ++
              [Event.apiDelete x] ++
              (updateSceneStatus B x
                { status := some Status.removed, error := some none,
                  whisparrId := some none }
                (updateSceneStatus B x
                  { status := some Status.removing, error := some none } st).1).2 ++
              [Event.notify "Removed" "Scene removed from Whisparr"] := by
            simp [undoScene, hb, hs, hg, hD]
          intro e he
          rw [heq] at he
          rcases List.mem_append.mp he with h1 | h1
          · rcases List.mem_append.mp h1 with h2 | h2
            · rcases List.mem_append.mp h2 with h3 | h3
              · exact hch.1 e h3
              · have h4 := List.mem_singleton.mp h3
                subst h4
                rfl
            · exact hch.2 e h2
          · have h4 := List.mem_singleton.mp h1
            subst h4
            rfl
        | some msg =>
          have hch := chain2_edges B x
            { status := some Status.removing, error := some none }
            { status := some Status.added, error := some (some msg) } st b s hb hs h1e rfl
          have heq : (undoScene apiDel B x st).2.1 =
              (updateSceneStatus B x
                { status := some Status.removing, error := some none } st).2 ++
              [Event.apiDelete x] ++
              (updateSceneStatus B x
                { status := some Status.added, error := some (some msg) }
                (updateSceneStatus B x
                  { status := some Status.removing, error := some none } st).1).2 := by
            simp [undoScene, hb, hs, hg, hD, hcur]
          intro e he
          rw [heq] at he
          rcases List.mem_append.mp he with h1 | h1
          · rcases List.mem_append.mp h1 with h2 | h2
            · exact hch.1 e h2
            · have h4 := List.mem_singleton.mp h2
              subst h4
              rfl
          · exact hch.2 e h1

theorem addSingle_edges (compile : String → Option (String → Bool))
    (api : String → ApiResult) (now : Nat) (x : String) (md : SceneMetadata)
    (st : State)
    (hfresh : ∀ c ∈ st.batches, ¬ c.id = "batch-" ++ toString now) :
    ∀ e ∈ (addSingleSceneWithMetadata compile api now x md st).2,
      edgeOKEvent e = true := by
  have hb0 : ((createBatch now [x] st).2.1).batches.find?
      (fun c => c.id = (createBatch now [x] st).1.id) =
      some (createBatch now [x] st).1 :=
    find?_id_append st.batches (createBatch now [x] st).1
      (createBatch now [x] st).1.id hfresh rfl
  have hs0 : ((createBatch now [x] st).1).scenes.find? (fun r => r.stashId = x) =
      some (waitingRecord x) := by
    show ([waitingRecord x] : List SceneRecord).find? (fun r => r.stashId = x) =
      some (waitingRecord x)
    simp [List.find?_cons, waitingRecord]
  cases hfr : (shouldAddScene compile ((createBatch now [x] st).2.1).filters md).shouldAdd with
  | false =>
    have heq : (addSingleSceneWithMetadata compile api now x md st).2 =
        (createBatch now [x] st).2.2 ++
        (updateSceneStatus (createBatch now [x] st).1.id x { status := some Status.filtered, title := some (if md.title = "" then none else some md.title), error := some (shouldAddScene compile ((createBatch now [x] st).2.1).filters md).reason } (createBatch now [x] st).2.1).2 ++
        [Event.notify "Filtered" ("Scene skipped: " ++
          ((shouldAddScene compile ((createBatch now [x] st).2.1).filters md).reason).getD "null")] := by
      simp [addSingleSceneWithMetadata, hfr]
    intro e he
    rw [heq] at he
    rcases List.mem_append.mp he with h1 | h1
    · rcases List.mem_append.mp h1 with h2 | h2
      · have hA : (createBatch now [x] st).2.2 = [Event.persistBatches] := rfl
        rw [hA] at h2
        have h3 := List.mem_singleton.mp h2
        subst h3
        rfl
      · refine updateSceneStatus_edges _ _ _ _ ?_ e h2
        intro b2 s2 hb2 hs2
        rw [hb0] at hb2
        cases Option.some_inj.mp hb2
        rw [hs0] at hs2
        cases Option.some_inj.mp hs2
        rfl
    · have h3 := List.mem_singleton.mp h1
      subst h3
      rfl
  | true =>
    have hmem : ∀ (u2 : SceneUpdate) (a b2 : String) (e : Event),
        (∀ ev ∈ (updateSceneStatus (createBatch now [x] st).1.id x { status := some Status.adding, title := some (if md.title = "" then none else some md.title) } (createBatch now [x] st).2.1).2, edgeOKEvent ev = true) →
        (∀ ev ∈ (updateSceneStatus (createBatch now [x] st).1.id x u2 (updateSceneStatus (createBatch now [x] st).1.id x { status := some Status.adding, title := some (if md.title = "" then none else some md.title) } (createBatch now [x] st).2.1).1).2, edgeOKEvent ev = true) →
        e ∈ (createBatch now [x] st).2.2 ++ (updateSceneStatus (createBatch now [x] st).1.id x { status := some Status.adding, title := some (if md.title = "" then none else some md.title) } (createBatch now [x] st).2.1).2 ++ [Event.apiAdd x] ++
          (updateSceneStatus (createBatch now [x] st).1.id x u2 (updateSceneStatus (createBatch now [x] st).1.id x { status := some Status.adding, title := some (if md.title = "" then none else some md.title) } (createBatch now [x] st).2.1).1).2 ++ [Event.notify a b2] →
        edgeOKEvent e = true := by
      intro u2 a b2 e hE1 hE2 he
      rcases List.mem_append.mp he with h1 | h1
      · rcases List.mem_append.mp h1 with h2 | h2
        · rcases List.mem_append.mp h2 with h3 | h3
          · rcases List.mem_append.mp h3 with h4 | h4
            · have hA : (createBatch now [x] st).2.2 = [Event.persistBatches] := rfl
              rw [hA] at h4
              have h5 := List.mem_singleton.mp h4
              subst h5
              rfl
            · exact hE1 e h4
          · have h5 := List.mem_singleton.mp h3
            subst h5
            rfl
        · exact hE2 e h2
      · have h5 := List.mem_singleton.mp h1
        subst h5
        rfl
    have hchain : ∀ u2 : SceneUpdate, u2.status = some (outcomeStatus (api x)) →
        (∀ ev ∈ (updateSceneStatus (createBatch now [x] st).1.id x { status := some Status.adding, title := some (if md.title = "" then none else some md.title) } (createBatch now [x] st).2.1).2, edgeOKEvent ev = true) ∧
        (∀ ev ∈ (updateSceneStatus (createBatch now [x] st).1.id x u2 (updateSceneStatus (createBatch now [x] st).1.id x { status := some Status.adding, title := some (if md.title = "" then none else some md.title) } (createBatch now [x] st).2.1).1).2, edgeOKEvent ev = true) := by
      intro u2 hu2
      refine chain2_edges (createBatch now [x] st).1.id x { status := some Status.adding, title := some (if md.title = "" then none else some md.title) } u2 (createBatch now [x] st).2.1 (createBatch now [x] st).1
        (waitingRecord x) hb0 hs0 rfl ?_
      rw [applyUpdate_status (applyUpdate (waitingRecord x) { status := some Status.adding, title := some (if md.title = "" then none else some md.title) }) u2, hu2]
      exact edge_adding_outcome (api x)
    cases hA2 : api x with
    | ok t m sFlag eFlag =>
      cases sFlag with
      | true =>
        have hch := hchain { status := some Status.searched, title := some (orTitle t (if md.title = "" then none else some md.title)), error := some none } (by rw [hA2]; rfl)
        intro e he
        refine hmem _ "Searching" "Scene already in Whisparr - search triggered" e hch.1 hch.2 ?_
        have heq : (addSingleSceneWithMetadata compile api now x md st).2 =
            (createBatch now [x] st).2.2 ++
            (updateSceneStatus (createBatch now [x] st).1.id x { status := some Status.adding, title := some (if md.title = "" then none else some md.title) } (createBatch now [x] st).2.1).2 ++
            [Event.apiAdd x] ++
            (updateSceneStatus (createBatch now [x] st).1.id x { status := some Status.searched, title := some (orTitle t (if md.title = "" then none else some md.title)), error := some none } (updateSceneStatus (createBatch now [x] st).1.id x { status := some Status.adding, title := some (if md.title = "" then none else some md.title) } (createBatch now [x] st).2.1).1).2 ++
            [Event.notify "Searching" "Scene already in Whisparr - search triggered"] := by
          simp [addSingleSceneWithMetadata, hfr, hA2]
        rw [← heq]
        exact he
      | false =>
        cases eFlag with
        | true =>
        have hch := hchain { status := some Status.exist, title := some (orTitle t (if md.title = "" then none else some md.title)), error := some none } (by rw [hA2]; rfl)
        intro e he
        refine hmem _ "Exists" "Scene already exists with file" e hch.1 hch.2 ?_
        have heq : (addSingleSceneWithMetadata compile api now x md st).2 =
            (createBatch now [x] st).2.2 ++
            (updateSceneStatus (createBatch now [x] st).1.id x { status := some Status.adding, title := some (if md.title = "" then none else some md.title) } (createBatch now [x] st).2.1).2 ++
            [Event.apiAdd x] ++
            (updateSceneStatus (createBatch now [x] st).1.id x { status := some Status.exist, title := some (orTitle t (if md.title = "" then none else some md.title)), error := some none } (updateSceneStatus (createBatch now [x] st).1.id x { status := some Status.adding, title := some (if md.title = "" then none else some md.title) } (createBatch now [x] st).2.1).1).2 ++
            [Event.notify "Exists" "Scene already exists with file"] := by
          simp [addSingleSceneWithMetadata, hfr, hA2]
        rw [← heq]
        exact he
        | false =>
        have hch := hchain { status := some Status.added, title := some (orTitle t (if md.title = "" then none else some md.title)), error := some none } (by rw [hA2]; rfl)
        intro e he
        refine hmem _ "Success" "Scene added to Whisparr" e hch.1 hch.2 ?_
        have heq : (addSingleSceneWithMetadata compile api now x md st).2 =
            (createBatch now [x] st).2.2 ++
            (updateSceneStatus (createBatch now [x] st).1.id x { status := some Status.adding, title := some (if md.title = "" then none else some md.title) } (createBatch now [x] st).2.1).2 ++
            [Event.apiAdd x] ++
            (updateSceneStatus (createBatch now [x] st).1.id x { status := some Status.added, title := some (orTitle t (if md.title = "" then none else some md.title)), error := some none } (updateSceneStatus (createBatch now [x] st).1.id x { status := some Status.adding, title := some (if md.title = "" then none else some md.title) } (createBatch now [x] st).2.1).1).2 ++
            [Event.notify "Success" "Scene added to Whisparr"] := by
          simp [addSingleSceneWithMetadata, hfr, hA2]
        rw [← heq]
        exact he
    | err msg sceneTitle =>
      cases hEx : errIndicatesExists msg with
      | true =>
        have hch := hchain { status := some Status.exist, title := some (orTitle sceneTitle (if md.title = "" then none else some md.title)), error := some none } (by simp [outcomeStatus, hA2, hEx])
        intro e he
        refine hmem _ "Exists" "Scene already exists with file" e hch.1 hch.2 ?_
        have heq : (addSingleSceneWithMetadata compile api now x md st).2 =
            (createBatch now [x] st).2.2 ++
            (updateSceneStatus (createBatch now [x] st).1.id x { status := some Status.adding, title := some (if md.title = "" then none else some md.title) } (createBatch now [x] st).2.1).2 ++
            [Event.apiAdd x] ++
            (updateSceneStatus (createBatch now [x] st).1.id x { status := some Status.exist, title := some (orTitle sceneTitle (if md.title = "" then none else some md.title)), error := some none } (updateSceneStatus (createBatch now [x] st).1.id x { status := some Status.adding, title := some (if md.title = "" then none else some md.title) } (createBatch now [x] st).2.1).1).2 ++
            [Event.notify "Exists" "Scene already exists with file"] := by
          simp [addSingleSceneWithMetadata, hfr, hA2, hEx]
        rw [← heq]
        exact he
      | false =>
        have hch := hchain { status := some Status.error, title := some (orTitle sceneTitle (if md.title = "" then none else some md.title)), error := some (some msg) } (by simp [outcomeStatus, hA2, hEx])
        intro e he
        refine hmem _ "Error" msg e hch.1 hch.2 ?_
        have heq : (addSingleSceneWithMetadata compile api now x md st).2 =
            (createBatch now [x] st).2.2 ++
            (updateSceneStatus (createBatch now [x] st).1.id x { status := some Status.adding, title := some (if md.title = "" then none else some md.title) } (createBatch now [x] st).2.1).2 ++
            [Event.apiAdd x] ++
            (updateSceneStatus (createBatch now [x] st).1.id x { status := some Status.error, title := some (orTitle sceneTitle (if md.title = "" then none else some md.title)), error := some (some msg) } (updateSceneStatus (createBatch now [x] st).1.id x { status := some Status.adding, title := some (if md.title = "" then none else some md.title) } (createBatch now [x] st).2.1).1).2 ++
            [Event.notify "Error" msg] := by
          simp [addSingleSceneWithMetadata, hfr, hA2, hEx]
        rw [← heq]
        exact he

theorem addMultiple_edges (compile : String → Option (String → Bool))
    (api : String → ApiResult) (now : Nat) (ext : List (List String))
    (scenes : List SceneInput) (st : State)
    (hnd : (scenes.map SceneInput.stashId).Nodup)
    (hfresh : ∀ c ∈ st.batches, ¬ c.id = "batch-" ++ toString now) :
    ∀ e ∈ (addMultipleScenesWithMetadata compile api now ext scenes st).2,
      edgeOKEvent e = true := by
  obtain ⟨scenes1, hbs1, hids1, hframe1, hupd1, hapi1, hdel1, hfil1, hcan1, hedge1⟩ :=
    bulkMark_char compile now scenes st hnd hfresh
  by_cases hall : (allowedScenes compile st.filters scenes).length = 0
  · rw [addMultiple_all_branch compile api now ext scenes st hall]
    intro e he
    rcases List.mem_append.mp he with h1 | h1
    · rcases List.mem_append.mp h1 with h2 | h2
      · have hA : (bulkCreate now scenes st).2.2 = [Event.persistBatches] := rfl
        rw [hA] at h2
        have h3 := List.mem_singleton.mp h2
        subst h3
        rfl
      · exact hedge1 e h2
    · have h3 := List.mem_singleton.mp h1
      subst h3
      rfl
  · have hS2 : (bulkMark compile now scenes st).1.batches =
        st.batches ++ [{ (bulkCreate now scenes st).1 with scenes := scenes1 }] := hbs1
    have hndA := allowedScenes_nodup compile st.filters scenes hnd
    have hwaitA : ∀ s ∈ allowedScenes compile st.filters scenes, ∃ r,
        ({ (bulkCreate now scenes st).1 with scenes := scenes1 } : Batch).scenes.find?
          (fun c => c.stashId = s.stashId) = some r ∧
        r.status = Status.waiting := by
      intro s hs
      obtain ⟨hsS, hsA⟩ := allowedScenes_sub compile st.filters scenes s hs
      have hnotb := allowed_not_in_blocked compile st.filters scenes hnd s hsS hsA
      refine ⟨waitingRecord s.stashId, ?_, rfl⟩
      rw [show ({ (bulkCreate now scenes st).1 with scenes := scenes1 } : Batch).scenes =
        scenes1 from rfl]
      rw [hframe1 s.stashId hnotb]
      exact find?_waitingRecord _ _ (List.mem_map.mpr ⟨s, hsS, rfl⟩)
    obtain ⟨scenes2, hbs2, hids2, hframe2, hedge2, hapi2, hfil2⟩ :=
      processLoop_general api (bulkCreate now scenes st).1.id
        (allowedScenes compile st.filters scenes).length
        (allowedScenes compile st.filters scenes) ext 0
        { filtered := (blockedScenes compile st.filters scenes).length }
        (bulkMark compile now scenes st).1 st.batches
        { (bulkCreate now scenes st).1 with scenes := scenes1 }
        hS2 hfresh rfl hndA hwaitA
    rw [addMultiple_some_branch compile api now ext scenes st hall]
    intro e he
    rcases List.mem_append.mp he with h1 | h1
    · rcases List.mem_append.mp h1 with h2 | h2
      · rcases List.mem_append.mp h2 with h3 | h3
        · rcases List.mem_append.mp h3 with h4 | h4
          · have hA : (bulkCreate now scenes st).2.2 = [Event.persistBatches] := rfl
            rw [hA] at h4
            have h5 := List.mem_singleton.mp h4
            subst h5
            rfl
          · exact hedge1 e h4
        · have h5 := List.mem_singleton.mp h3
          subst h5
          rfl
      · exact hedge2 e h2
    · have h5 := List.mem_singleton.mp h1
      subst h5
      rfl

/-- Claim C4 amended: the status updates of the orchestrator operations all
follow edges of the corrected state machine (with `waiting → cancelled` as the
cancellation edge) — the bulk add under distinct candidate ids and a fresh
time-derived batch id, the single add under a fresh batch id, `retryScene`
provided the target scene is in `error` status, `retryAllFailed` under
pairwise-distinct batch ids and per-batch scene ids, `cancelBatch`
unconditionally (it touches no scene status), and `undoScene`
unconditionally; moreover in that machine `adding` is only entered from
`waiting` or `error`, and `filtered`, `cancelled` and `removed` are terminal.
Without the `error`-status proviso the claim fails: `retryScene` checks no
status and happily leaves terminal states. -/
theorem C4_status_monotonicity
    (compile : String → Option (String → Bool)) (api : String → ApiResult)
    (apiDel : String → Option Nat → Option String) (now : Nat)
    (ext : List (List String)) (scenes : List SceneInput) (B x : String)
    (md : SceneMetadata) (st : State)
    (hnd : (scenes.map SceneInput.stashId).Nodup)
    (hfresh : ∀ c ∈ st.batches, ¬ c.id = "batch-" ++ toString now)
    (hwfB : (st.batches.map Batch.id).Nodup)
    (hwfS : ∀ b ∈ st.batches, (b.scenes.map SceneRecord.stashId).Nodup)
    (herr : ∀ p ∈ st.batches, ∀ r ∈ p.scenes, p.id = B → r.stashId = x →
      r.status = Status.error) :
    (∀ e ∈ (addMultipleScenesWithMetadata compile api now ext scenes st).2,
      edgeOKEvent e = true) ∧
    (∀ e ∈ (addSingleSceneWithMetadata compile api now x md st).2,
      edgeOKEvent e = true) ∧
    (∀ e ∈ (retryScene api B x st).2.1, edgeOKEvent e = true) ∧
    (∀ e ∈ (retryAllFailed api st).2, edgeOKEvent e = true) ∧
    (cancelBatch B st).1.batches = st.batches ∧
    (∀ e ∈ (undoScene apiDel B x st).2.1, edgeOKEvent e = true) ∧
    (∀ o n, allowedEdge o n = true → n = Status.adding →
      o = Status.waiting ∨ o = Status.error) ∧
    (∀ o n, allowedEdge o n = true →
      ¬ o = Status.filtered ∧ ¬ o = Status.cancelled ∧ ¬ o = Status.removed) :=
  ⟨addMultiple_edges compile api now ext scenes st hnd hfresh,
   addSingle_edges compile api now x md st hfresh,
   retryScene_edges api B x st
     (fun b s hb hs =>
       herr b (List.mem_of_find?_eq_some hb) s (List.mem_of_find?_eq_some hs)
         (by simpa using List.find?_some hb)
         (by simpa using List.find?_some hs)),
   retryAllFailed_edges api st hwfB hwfS,
   cancelBatch_batches B st,
   undoScene_edges apiDel B x st,
   fun o n h1 h2 => by subst h2; cases o <;> simp_all [allowedEdge],
   fun o n h1 => by cases o <;> cases n <;> simp_all [allowedEdge]⟩

/-- Claim C4 amended witness: a three-candidate bulk add, a single add, a
retry of an `error` scene, retry-all, cancel and undo on a concrete
well-formed store, instantiated at concrete oracles. -/
theorem C4_status_monotonicity_witness :
    (∀ e ∈ (addMultipleScenesWithMetadata wCompile wApiAdded 7 [] wScenesMix
        wStateError).2, edgeOKEvent e = true) ∧
    (∀ e ∈ (addSingleSceneWithMetadata wCompile wApiAdded 7 "s1" wMdPass
        wStateError).2, edgeOKEvent e = true) ∧
    (∀ e ∈ (retryScene wApiAdded "b1" "s1" wStateError).2.1, edgeOKEvent e = true) ∧
    (∀ e ∈ (retryAllFailed wApiAdded wStateError).2, edgeOKEvent e = true) ∧
    (cancelBatch "b1" wStateError).1.batches = wStateError.batches ∧
    (∀ e ∈ (undoScene wApiDelFail "b1" "s1" wStateError).2.1, edgeOKEvent e = true) ∧
    (∀ o n, allowedEdge o n = true → n = Status.adding →
      o = Status.waiting ∨ o = Status.error) ∧
    (∀ o n, allowedEdge o n = true →
      ¬ o = Status.filtered ∧ ¬ o = Status.cancelled ∧ ¬ o = Status.removed) :=
  C4_status_monotonicity wCompile wApiAdded wApiDelFail 7 [] wScenesMix "b1" "s1"
    wMdPass wStateError (by decide) (by decide) (by decide) (by decide) (by decide)

/-- Claim C4 counterexample: `retryScene` performs no status check, so
retrying a `filtered` scene emits a `filtered → adding` status update — a
transition out of a terminal status that the §4.2 state machine does not
allow. -/
theorem C4_counterexample :
    Event.statusUpdate "b1" "s1" Status.filtered Status.adding ∈
      (retryScene wApiAdded "b1" "s1" wStateFiltered).2.1 ∧
    allowedEdge Status.filtered Status.adding = false := by
  refine ⟨by decide, rfl⟩

theorem getD_tail_lists (l : List (List String)) (j : Nat) :
    l.tail.getD j [] = l.getD (j + 1) [] := by
  cases l with
  | nil => cases j <;> rfl
  | cons a rest => rfl

theorem headD_eq_getD (l : List (List String)) : l.headD [] = l.getD 0 [] := by
  cases l with
  | nil => rfl
  | cons a rest => rfl

theorem cancelBatch_success_set (B : String) (st : State)
    (h : (cancelBatch B st).2 = none) :
    (cancelBatch B st).1.cancelledBatchIds = insertId B st.cancelledBatchIds := by
  cases hf : st.batches.find? (fun b => b.id = B) with
  | none => simp [cancelBatch, hf] at h
  | some b =>
    by_cases ha : b.scenes.any (fun s =>
        s.status = Status.waiting || s.status = Status.adding) = true
    · simp [cancelBatch, hf, ha]
    · simp [cancelBatch, hf, ha] at h

theorem processLoop_cancel_at (api : String → ApiResult) (B : String) (total : Nat)
    (toProcess : List SceneInput) (ext : List (List String)) (i : Nat) (cnt : Counts)
    (st : State) (bs0 : List Batch) (b : Batch) (i0 : Nat)
    (hS : st.batches = bs0 ++ [b]) (hfresh : ∀ c ∈ bs0, ¬ c.id = B) (hbid : b.id = B)
    (hnd : (toProcess.map SceneInput.stashId).Nodup)
    (hwait : ∀ s ∈ toProcess, ∃ r,
      b.scenes.find? (fun c => c.stashId = s.stashId) = some r ∧
      r.status = Status.waiting)
    (hi0 : i0 < toProcess.length)
    (hnotin : ¬ B ∈ st.cancelledBatchIds)
    (hbefore : ∀ j, j < i0 → ¬ B ∈ ext.getD j [])
    (hat : B ∈ ext.getD i0 []) :
    ∃ scenes1,
      (processLoop api B total toProcess ext i cnt st).1.batches =
        bs0 ++ [{ b with scenes := scenes1 }] ∧
      scenes1.map SceneRecord.stashId = b.scenes.map SceneRecord.stashId ∧
      (∀ y, ¬ y ∈ toProcess.map SceneInput.stashId →
        scenes1.find? (fun s => s.stashId = y) =
          b.scenes.find? (fun s => s.stashId = y)) ∧
      (∀ s ∈ toProcess.take i0, ∃ r,
        scenes1.find? (fun c => c.stashId = s.stashId) = some r ∧
        r.status = outcomeStatus (api s.stashId)) ∧
      (∀ s ∈ toProcess.drop i0, ∃ r,
        scenes1.find? (fun c => c.stashId = s.stashId) = some r ∧
        r.status = Status.cancelled ∧ r.error = some "Cancelled by user") ∧
      apiAddsOf (processLoop api B total toProcess ext i cnt st).2.1 =
        (toProcess.take i0).map SceneInput.stashId ∧
      ¬ B ∈ (processLoop api B total toProcess ext i cnt st).1.cancelledBatchIds := by
  induction i0 generalizing toProcess ext i cnt st b with
  | zero =>
    cases toProcess with
    | nil => simp at hi0
    | cons scene rest =>
      have hc : B ∈ addAll st.cancelledBatchIds (ext.headD []) := by
        rw [mem_addAll]
        right
        rw [headD_eq_getD]
        exact hat
      rw [processLoop_cons_cancel api B total scene rest ext i cnt st hc]
      obtain ⟨scenes1, hbs, hids, hframe, hupd, hev, hapi, hfil, hflag⟩ :=
        cancelRemaining_char B (scene :: rest) cnt
          { st with cancelledBatchIds := addAll st.cancelledBatchIds (ext.headD []) }
          bs0 b hS hfresh hbid hnd hwait
      refine ⟨scenes1, hbs, hids, hframe, ?_, ?_, ?_, hflag⟩
      · intro s hs
        simp at hs
      · intro s hs
        exact hupd s (by simpa using hs)
      · rw [hapi]
        rfl
  | succ j0 ih =>
    cases toProcess with
    | nil => simp at hi0
    | cons scene rest =>
      have hc : ¬ B ∈ addAll st.cancelledBatchIds (ext.headD []) := by
        rw [mem_addAll]
        rintro (h | h)
        · exact hnotin h
        · rw [headD_eq_getD] at h
          exact hbefore 0 (Nat.succ_pos j0) h
      have hstep := processLoop_cons_step api B total scene rest ext i cnt st hc
      have hprojB : (processLoop api B total (scene :: rest) ext i cnt st).1 =
          (processLoop api B total rest ext.tail (i + 1) (processIter api B total scene i cnt { st with cancelledBatchIds := addAll st.cancelledBatchIds (ext.headD []) }).2.2 (processIter api B total scene i cnt { st with cancelledBatchIds := addAll st.cancelledBatchIds (ext.headD []) }).1).1 := by
        rw [hstep]
      have hprojE : (processLoop api B total (scene :: rest) ext i cnt st).2.1 =
          (processIter api B total scene i cnt { st with cancelledBatchIds := addAll st.cancelledBatchIds (ext.headD []) }).2.1 ++ (processLoop api B total rest ext.tail (i + 1) (processIter api B total scene i cnt { st with cancelledBatchIds := addAll st.cancelledBatchIds (ext.headD []) }).2.2 (processIter api B total scene i cnt { st with cancelledBatchIds := addAll st.cancelledBatchIds (ext.headD []) }).1).2.1 := by
        rw [hstep]
      obtain ⟨r0, hr0, hw0⟩ := hwait scene (by simp)
      obtain ⟨scenes1, hbs1, hids1, hframe1, hself1, hev1, hapi1, hfil1, hcan1⟩ :=
        processIter_char api B total scene i cnt
          { st with cancelledBatchIds := addAll st.cancelledBatchIds (ext.headD []) }
          bs0 b hS hfresh hbid r0 hr0 hw0
      have hndr : (rest.map SceneInput.stashId).Nodup := (List.nodup_cons.mp hnd).2
      have hheadnot : ¬ scene.stashId ∈ rest.map SceneInput.stashId :=
        (List.nodup_cons.mp hnd).1
      have hwait2 : ∀ s ∈ rest, ∃ r,
          ({ b with scenes := scenes1 } : Batch).scenes.find?
            (fun c => c.stashId = s.stashId) = some r ∧
          r.status = Status.waiting := by
        intro s hs
        obtain ⟨r, hr, hwr⟩ := hwait s (by simp [hs])
        have hne : ¬ s.stashId = scene.stashId := by
          intro he
          exact hheadnot (he ▸ List.mem_map.mpr ⟨s, hs, rfl⟩)
        refine ⟨r, ?_, hwr⟩
        rw [show ({ b with scenes := scenes1 } : Batch).scenes = scenes1 from rfl]
        rw [hframe1 s.stashId hne]
        exact hr
      have hnotin2 : ¬ B ∈ (processIter api B total scene i cnt { st with cancelledBatchIds := addAll st.cancelledBatchIds (ext.headD []) }).1.cancelledBatchIds := by
        rw [hcan1]
        exact hc
      have hbefore2 : ∀ j, j < j0 → ¬ B ∈ ext.tail.getD j [] := by
        intro j hj
        rw [getD_tail_lists]
        exact hbefore (j + 1) (Nat.succ_lt_succ hj)
      have hat2 : B ∈ ext.tail.getD j0 [] := by
        rw [getD_tail_lists]
        exact hat
      obtain ⟨scenes2, hbs2, hids2, hframe2, htake2, hdrop2, hapi2, hflag2⟩ :=
        ih rest ext.tail (i + 1) (processIter api B total scene i cnt { st with cancelledBatchIds := addAll st.cancelledBatchIds (ext.headD []) }).2.2 (processIter api B total scene i cnt { st with cancelledBatchIds := addAll st.cancelledBatchIds (ext.headD []) }).1
          { b with scenes := scenes1 }
          hbs1 hbid hndr hwait2 (Nat.lt_of_succ_lt_succ hi0) hnotin2 hbefore2 hat2
      refine ⟨scenes2, ?_, ?_, ?_, ?_, ?_, ?_, ?_⟩
      · rw [hprojB]
        exact hbs2
      · exact hids2.trans hids1
      · intro y hy
        have hy1 : ¬ y = scene.stashId := by
          intro he
          exact hy (by simp [he])
        have hy2 : ¬ y ∈ rest.map SceneInput.stashId := by
          intro hm
          exact hy (by simp [hm])
        rw [hframe2 y hy2]
        exact hframe1 y hy1
      · intro s hs
        rw [List.take_succ_cons] at hs
        rcases List.mem_cons.mp hs with h | h
        · subst h
          obtain ⟨r1, hfind, hstat⟩ := hself1
          refine ⟨r1, ?_, hstat⟩
          rw [hframe2 s.stashId hheadnot]
          exact hfind
        · exact htake2 s h
      · intro s hs
        rw [List.drop_succ_cons] at hs
        exact hdrop2 s hs
      · rw [hprojE, apiAddsOf_append, hapi1, hapi2, List.take_succ_cons, List.map_cons]
        rfl
      · rw [hprojB]
        exact hflag2

/-- Claim C6: `cancelBatch` sets the cancellation flag keyed by the batch id
(on success the id is added to the set), and the bulk-add loop observes that
flag only at the top of each per-scene iteration: if the flag first appears
during iteration `i0` (it was absent initially and absent from every earlier
suspension point), then every scene from position `i0` on is marked
`cancelled` with error `Cancelled by user`, every scene before `i0` keeps the
terminal status its own add call produced (untouched by the cancellation),
exactly the first `i0` scenes get remote add calls (the loop stops), scenes
outside the processed list are untouched, and the flag is consumed — it is no
longer present when the loop finishes. -/
theorem C6_cancellation (api : String → ApiResult) (B : String) (total : Nat)
    (toProcess : List SceneInput) (ext : List (List String)) (i : Nat) (cnt : Counts)
    (st : State) (bs0 : List Batch) (b : Batch) (i0 : Nat)
    (hS : st.batches = bs0 ++ [b]) (hfresh : ∀ c ∈ bs0, ¬ c.id = B) (hbid : b.id = B)
    (hnd : (toProcess.map SceneInput.stashId).Nodup)
    (hwait : ∀ s ∈ toProcess, ∃ r,
      b.scenes.find? (fun c => c.stashId = s.stashId) = some r ∧
      r.status = Status.waiting)
    (hi0 : i0 < toProcess.length)
    (hnotin : ¬ B ∈ st.cancelledBatchIds)
    (hbefore : ∀ j, j < i0 → ¬ B ∈ ext.getD j [])
    (hat : B ∈ ext.getD i0 []) :
    ((cancelBatch B st).2 = none →
      (cancelBatch B st).1.cancelledBatchIds = insertId B st.cancelledBatchIds) ∧
    (∃ scenes1,
      (processLoop api B total toProcess ext i cnt st).1.batches =
        bs0 ++ [{ b with scenes := scenes1 }] ∧
      scenes1.map SceneRecord.stashId = b.scenes.map SceneRecord.stashId ∧
      (∀ y, ¬ y ∈ toProcess.map SceneInput.stashId →
        scenes1.find? (fun s => s.stashId = y) =
          b.scenes.find? (fun s => s.stashId = y)) ∧
      (∀ s ∈ toProcess.take i0, ∃ r,
        scenes1.find? (fun c => c.stashId = s.stashId) = some r ∧
        r.status = outcomeStatus (api s.stashId)) ∧
      (∀ s ∈ toProcess.drop i0, ∃ r,
        scenes1.find? (fun c => c.stashId = s.stashId) = some r ∧
        r.status = Status.cancelled ∧ r.error = some "Cancelled by user") ∧
      apiAddsOf (processLoop api B total toProcess ext i cnt st).2.1 =
        (toProcess.take i0).map SceneInput.stashId ∧
      ¬ B ∈ (processLoop api B total toProcess ext i cnt st).1.cancelledBatchIds) :=
  ⟨fun h => cancelBatch_success_set B st h,
   processLoop_cancel_at api B total toProcess ext i cnt st bs0 b i0
     hS hfresh hbid hnd hwait hi0 hnotin hbefore hat⟩

/-- Claim C6 witness: a batch of three waiting scenes cancelled at the top of
the second iteration — scene 1 keeps its add outcome, scenes 2 and 3 are
cancelled, only one remote call is made, and the flag is consumed. -/
theorem C6_cancellation_witness :
    (((cancelBatch "B1" wStateBulk).2 = none →
      (cancelBatch "B1" wStateBulk).1.cancelledBatchIds =
        insertId "B1" wStateBulk.cancelledBatchIds) ∧
    (∃ scenes1,
      (processLoop wApiAdded "B1" 3 wScenes3 [[], ["B1"]] 0 {} wStateBulk).1.batches =
        [] ++ [{ (⟨"B1", 0, [waitingRecord "a", waitingRecord "b", waitingRecord "c"]⟩ : Batch) with scenes := scenes1 }] ∧
      scenes1.map SceneRecord.stashId =
        ((⟨"B1", 0, [waitingRecord "a", waitingRecord "b", waitingRecord "c"]⟩ : Batch)).scenes.map SceneRecord.stashId ∧
      (∀ y, ¬ y ∈ wScenes3.map SceneInput.stashId →
        scenes1.find? (fun s => s.stashId = y) =
          ((⟨"B1", 0, [waitingRecord "a", waitingRecord "b", waitingRecord "c"]⟩ : Batch)).scenes.find? (fun s => s.stashId = y)) ∧
      (∀ s ∈ wScenes3.take 1, ∃ r,
        scenes1.find? (fun c => c.stashId = s.stashId) = some r ∧
        r.status = outcomeStatus (wApiAdded s.stashId)) ∧
      (∀ s ∈ wScenes3.drop 1, ∃ r,
        scenes1.find? (fun c => c.stashId = s.stashId) = some r ∧
        r.status = Status.cancelled ∧ r.error = some "Cancelled by user") ∧
      apiAddsOf (processLoop wApiAdded "B1" 3 wScenes3 [[], ["B1"]] 0 {} wStateBulk).2.1 =
        (wScenes3.take 1).map SceneInput.stashId ∧
      ¬ "B1" ∈ (processLoop wApiAdded "B1" 3 wScenes3 [[], ["B1"]] 0 {}
        wStateBulk).1.cancelledBatchIds)) :=
  C6_cancellation wApiAdded "B1" 3 wScenes3 [[], ["B1"]] 0 {} wStateBulk []
    (⟨"B1", 0, [waitingRecord "a", waitingRecord "b", waitingRecord "c"]⟩ : Batch) 1 rfl (by decide) rfl (by decide)
    (by
      intro s hs
      simp only [wScenes3, List.mem_cons] at hs
      rcases hs with rfl | rfl | rfl | hs2
      · exact ⟨waitingRecord "a", by decide, rfl⟩
      · exact ⟨waitingRecord "b", by decide, rfl⟩
      · exact ⟨waitingRecord "c", by decide, rfl⟩
      · simp at hs2)
    (by decide) (by decide) (by decide) (by decide)

end StashdbWhisparr
